import Mathlib

/-!
Shallow embedding of the asset-generation pipelines of the midjourney-api
example scripts (`src/example/exampleScript.ts` and `src/example/anime.ts`),
together with proofs about the prompt composers, the variation-selection and
persistence logic, the progress ledger, and the two-phase orchestration.

The repository holds three pipeline variants:
  * `exampleScript.ts` — class `AnimeSceneGenerator` with a variations
    directory, per-item metadata records and an in-memory character-ref map
    (namespace `Ex` below);
  * the first document of `anime.ts` — a simpler `AnimeSceneGenerator`
    whose scene-prompt builder probes the filesystem via `fs.existsSync`
    (namespace `A1` below);
  * the second document of `anime.ts` — the progress-ledger pipeline with
    the hardcoded `story` object, `loadProgress`/`saveProgress`, and a
    `character_references.json` summary file (namespace `An` below).

Effects (the Midjourney client, axios/fetch, the filesystem clock) are
embedded as explicit "world" records of pure oracles, and every side effect
the code performs is recorded as an `Event` in an execution trace, so that
ordering and counting properties (ledger-after-artifact, phase ordering,
zero resubmission on resume) can be stated about the trace.
-/

namespace MJ

/-- Apostrophe character (codepoint 39), used to spell embedded source
strings that contain one. -/
def apo : String := String.mk [Char.ofNat 39]

/-- JavaScript string interpolation of a possibly-undefined value:
`undefined` interpolates as the literal text "undefined". -/
def jsStr : Option String → String
  | some s => s
  | none => "undefined"

/-- Rendering of `x || ""` / of an optional field inside a JS template:
an absent value contributes the empty string. -/
def orEmpty : Option String → String
  | some s => s
  | none => ""

/-- `Character` interface of `exampleScript.ts` (the optional
`referenceUrl`/`selectedVariation` fields are never read by the pipeline
and are omitted). -/
structure Character where
  name : String
  description : String
  stylePrompt : String
  deriving DecidableEq

/-- `Scene` interface of `exampleScript.ts` / `anime.ts` (first document). -/
structure Scene where
  sceneNumber : Nat
  description : String
  characters : List String
  setting : String
  mood : String
  cameraAngle : Option String
  action : String
  deriving DecidableEq

/-- `AnimeScript` interface. -/
structure AnimeScript where
  title : String
  style : String
  artStyle : String
  characters : List Character
  scenes : List Scene
  deriving DecidableEq

/-- One entry of `MJResponse.options`. -/
structure Variation where
  id : String
  hash : String
  uri : String
  deriving DecidableEq

/-- `MJResponse` interface of `exampleScript.ts`: the backend response for
one submitted prompt.  `uri` and `options` are optional in the source. -/
structure MJResponse where
  id : String
  hash : String
  flags : Nat
  uri : Option String
  options : Option (List Variation)
  deriving DecidableEq

/-- `ProgressState` interface of `anime.ts` (second document): the durable
progress ledger. -/
structure ProgressState where
  completedCharacters : List String
  completedScenes : List String
  deriving DecidableEq

/-- Whether a generation belongs to the character phase or the scene phase
(the `type` argument of `generateAndSelectVariation`, and the call site of
`client.Imagine` in the ledger pipeline). -/
inductive ItemKind where
  | character
  | scene
  deriving DecidableEq

/-- Side effects performed by the pipelines, recorded in execution order. -/
inductive Event where
  | imagineCall (kind : ItemKind) (prompt : String)
  | upscaleCall (msgId : String)
  | mkdirCall (dir : String)
  | download (url : String) (filepath : String)
  | downloadFail (url : String) (filepath : String)
  | writeMeta (filepath : String) (promptText : String) (imagineId : String)
      (selectedVariation : String) (allVariations : List (String × String))
      (localPath : String) (timestamp : String)
  | ledgerSave (st : ProgressState)
  | refsWrite (uris : List (String × String)) (files : List (String × String))
  deriving DecidableEq

/-- An event is a backend submission when it reaches the Midjourney client
(`Imagine` or `Upscale`). -/
def isSubmission : Event → Bool
  | .imagineCall _ _ => true
  | .upscaleCall _ => true
  | _ => false

/-- Number of backend submissions in a trace. -/
def submissionCount (evs : List Event) : Nat := (evs.filter isSubmission).length

/-- Recognizes an `Imagine` call. -/
def isImagine : Event → Bool
  | .imagineCall _ _ => true
  | _ => false

/-- Number of `Imagine` calls in a trace. -/
def imagineCount (evs : List Event) : Nat := (evs.filter isImagine).length

/-- Recognizes a per-item metadata record write. -/
def isWriteMeta : Event → Bool
  | .writeMeta .. => true
  | _ => false

/-- Recognizes a character-phase `Imagine` call. -/
def isCharImagine : Event → Bool
  | .imagineCall .character _ => true
  | _ => false

/-- Recognizes a scene-phase `Imagine` call. -/
def isSceneImagine : Event → Bool
  | .imagineCall .scene _ => true
  | _ => false

/-- The prompts of all scene-phase `Imagine` calls of a trace, in order. -/
def sceneImaginePrompts (evs : List Event) : List String :=
  evs.filterMap fun e =>
    match e with
    | .imagineCall .scene p => some p
    | _ => none

/-- Recognizes a ledger write. -/
def isLedgerSave : Event → Bool
  | .ledgerSave _ => true
  | _ => false

/-- Whether the first character list is an initial segment of the second. -/
def charsLeadingOf : List Char → List Char → Bool
  | [], _ => true
  | _ :: _, [] => false
  | a :: as, b :: bs => a == b && charsLeadingOf as bs

/-- Whether the first character list occurs contiguously in the second. -/
def charsWithin (needle : List Char) : List Char → Bool
  | [] => needle.isEmpty
  | b :: bs => charsLeadingOf needle (b :: bs) || charsWithin needle bs

/-- Boolean substring test on strings, via the underlying character lists. -/
def containsStr (needle hay : String) : Bool :=
  charsWithin needle.toList hay.toList

end MJ

namespace MJ.Ex

/-! Embedding of `src/example/exampleScript.ts` (class
`AnimeSceneGenerator`).  The external collaborators consumed by the class —
`this.client.Imagine`, the axios GET + `fs.writeFile` pair inside
`downloadImage`, the metadata `fs.writeFile`, and the clock — are gathered
in a `World` of pure oracles.  `fetchOk url` tells whether the
axios-download-and-write of `url` succeeds (its failure is caught *inside*
`downloadImage`); `writeOk path` tells whether `fs.writeFile path` succeeds
(its failure propagates to the enclosing try/catch). -/

/-- External collaborators of `exampleScript.ts`. -/
structure World where
  imagine : String → Option MJResponse
  fetchOk : String → Bool
  writeOk : String → Bool
  now : String

/-- `this.baseOutputDir` is "./anime_output"; Node's `path.join` normalizes
the leading "./" away, so all constructed paths start with "anime_output/". -/
def variationsSubdir : ItemKind → String
  | .character => "characters/variations"
  | .scene => "scenes/variations"

/-- Directory component for the canonical artifact of an item kind. -/
def mainSubdir : ItemKind → String
  | .character => "characters"
  | .scene => "scenes"

/-- `path.join(this.baseOutputDir, ".../variations", outputName)`. -/
def variationsDir (ty : ItemKind) (outputName : String) : String :=
  "anime_output/" ++ variationsSubdir ty ++ "/" ++ outputName

/-- `path.join(this.baseOutputDir, ..., outputName + ".png")`. -/
def mainImagePath (ty : ItemKind) (outputName : String) : String :=
  "anime_output/" ++ mainSubdir ty ++ "/" ++ outputName ++ ".png"

/-- `path.join(this.baseOutputDir, ..., outputName + "_metadata.json")`. -/
def metadataPath (ty : ItemKind) (outputName : String) : String :=
  "anime_output/" ++ mainSubdir ty ++ "/" ++ outputName ++ "_metadata.json"

/-- Path of variation number `i` (1-based, as in the source loop). -/
def variationPath (ty : ItemKind) (outputName : String) (i : Nat) : String :=
  variationsDir ty outputName ++ "/variation_" ++ toString i ++ ".png"

/-- `buildCharacterPrompt` of `exampleScript.ts`. -/
def buildCharacterPrompt (c : Character) : String :=
  "masterpiece, high quality, anime character design, " ++ c.description ++ ", "
    ++ c.stylePrompt
    ++ ", full body character sheet, full body reference, multiple angles, detailed facial features, high detail, professional character design --v 6 --style raw"

/-- Per-character clause of `buildScenePrompt`: the `script.characters.find`
lookup with fallback to the bare name. -/
def characterClause (script : AnimeScript) (charName : String) : String :=
  match script.characters.find? (fun c => c.name == charName) with
  | some c => c.name ++ " (" ++ c.description ++ ", " ++ c.stylePrompt ++ ")"
  | none => charName

/-- One step of the `scene.characters.forEach` reference-injection loop of
`buildScenePrompt`: the string appended for `charName` at position `index`
(empty when the ref map has no truthy entry for the name). -/
def crefChunk (refs : List (String × String)) (charName : String) (index : Nat) : String :=
  match refs.lookup charName with
  | some r =>
      if r = "" then ""
      else " --cref " ++ r ++ (if index = 0 then " --cw 1" else "")
  | none => ""

/-- The reference-injection loop, accumulating from position `i`. -/
def crefSuffixAux (refs : List (String × String)) : Nat → List String → String
  | _, [] => ""
  | i, n :: ns => crefChunk refs n i ++ crefSuffixAux refs (i + 1) ns

/-- Everything `buildScenePrompt` appends after the base prompt. -/
def crefSuffix (chars : List String) (refs : List (String × String)) : String :=
  crefSuffixAux refs 0 chars

/-- The array literal inside `buildScenePrompt`, before `.filter(Boolean)`;
an absent `cameraAngle` is the one possibly-undefined entry. -/
def scenePromptParts (scene : Scene) (script : AnimeScript) : List String :=
  ["masterpiece, best quality",
   String.intercalate " and " (scene.characters.map (characterClause script)),
   scene.action,
   "in " ++ scene.setting,
   scene.mood,
   orEmpty scene.cameraAngle,
   script.artStyle,
   "detailed lighting, perfect composition",
   "--ar 16:9 --v 6 --style raw"]

/-- `buildScenePrompt` of `exampleScript.ts`: filter-then-join of the parts
(`filter(Boolean)` keeps exactly the non-empty strings), then the
reference-injection loop over `this.characterRefs`. -/
def buildScenePrompt (scene : Scene) (script : AnimeScript)
    (refs : List (String × String)) : String :=
  String.intercalate ", " ((scenePromptParts scene script).filter (fun s => s != ""))
    ++ crefSuffix scene.characters refs

/-- `downloadImage` of `exampleScript.ts`: the axios GET and the file write
are wrapped in a try/catch whose catch only logs, so the function never
propagates a failure. -/
def downloadImage (w : World) (imageUrl outputPath : String) : List Event :=
  if w.fetchOk imageUrl then [.download imageUrl outputPath]
  else [.downloadFail imageUrl outputPath]

/-- `generateAndSelectVariation` of `exampleScript.ts`.  Returns the trace
of effects and the value returned to the caller (`null` on a missing/empty
variation list and on an exception; the only uncaught-inside effect that
can throw is the metadata `fs.writeFile`). -/
def generateAndSelectVariation (w : World) (prompt outputName : String)
    (ty : ItemKind) : List Event × Option MJResponse :=
  match w.imagine prompt with
  | none => ([.imagineCall ty prompt], none)
  | some imagine =>
    match imagine.options with
    | none => ([.imagineCall ty prompt], none)
    | some [] => ([.imagineCall ty prompt], none)
    | some (v0 :: vs) =>
      let vDir := variationsDir ty outputName
      let varDownloads :=
        (((v0 :: vs).enum).map fun p =>
          downloadImage w p.2.uri (variationPath ty outputName (p.1 + 1))).flatten
      let mainPath := mainImagePath ty outputName
      let mainDownload := downloadImage w v0.uri mainPath
      let metaPath := metadataPath ty outputName
      let evs := Event.imagineCall ty prompt :: Event.mkdirCall vDir ::
        (varDownloads ++ mainDownload)
      if w.writeOk metaPath then
        (evs ++ [.writeMeta metaPath prompt imagine.id v0.id
            ((v0 :: vs).map fun o => (o.id, o.uri)) mainPath w.now],
         some { imagine with uri := some v0.uri })
      else (evs, none)

/-- The loop body of `generateCharacterReferences`: threads the in-memory
`characterRefs` map (modelled as an association list where the most recent
`Map.set` is the head). -/
def charLoop (w : World) :
    List Character → List (String × String) → List Event × List (String × String)
  | [], refs => ([], refs)
  | c :: cs, refs =>
    let r := generateAndSelectVariation w (buildCharacterPrompt c)
      ("character_" ++ c.name.toLower) .character
    let refs' :=
      match r.2 with
      | some resp =>
        match resp.uri with
        | some u => if u = "" then refs else (c.name, u) :: refs
        | none => refs
      | none => refs
    let rest := charLoop w cs refs'
    (r.1 ++ rest.1, rest.2)

/-- `generateCharacterReferences` of `exampleScript.ts` (the map starts
empty: it is a fresh `new Map()` of the class instance). -/
def generateCharacterReferences (w : World) (script : AnimeScript) :
    List Event × List (String × String) :=
  charLoop w script.characters []

/-- `padStart(3, "0")` on the decimal rendering of a scene number. -/
def pad3 (n : Nat) : String :=
  let s := toString n
  if s.length < 3 then String.mk (List.replicate (3 - s.length) '0') ++ s else s

/-- The loop body of `generateScenes`. -/
def sceneLoop (w : World) (script : AnimeScript) (refs : List (String × String)) :
    List Scene → List Event
  | [] => []
  | s :: ss =>
    let r := generateAndSelectVariation w (buildScenePrompt s script refs)
      ("scene_" ++ pad3 s.sceneNumber) .scene
    r.1 ++ sceneLoop w script refs ss

/-- `generateScenes` of `exampleScript.ts`. -/
def generateScenes (w : World) (script : AnimeScript)
    (refs : List (String × String)) : List Event :=
  sceneLoop w script refs script.scenes

end MJ.Ex

namespace MJ.A1

/-! Embedding of the first document of `src/example/anime.ts` (the simpler
`AnimeSceneGenerator`).  Its scene-prompt builder is the one place a prompt
composer touches the filesystem: for `sceneNumber > 1` it probes
`fs.existsSync(path.join(this.outputDir, "scene_001.png"))` and, when the
probe answers true, appends a `--sref` directive.  The probe is embedded as
an explicit oracle `existsSync : String → Bool` standing for the
filesystem state observed by the call. -/

/-- `buildCharacterPrompt` of the first `anime.ts` document. -/
def buildCharacterPrompt (c : Character) : String :=
  c.description ++ ", " ++ c.stylePrompt
    ++ ", full body character reference sheet, character design, high detail --v 6 --style raw"

/-- `path.join("./anime_output", "scene_001.png")` (Node normalizes the
leading "./"). -/
def firstSceneRefPath : String := "anime_output/scene_001.png"

/-- `buildScenePrompt` of the first `anime.ts` document: a single template
literal (empty optional fields are rendered as empty tokens between the
commas), then a `--cref` per supplied reference, then the conditional
filesystem-dependent `--sref` directive. -/
def buildScenePrompt (existsSync : String → Bool) (scene : Scene)
    (script : AnimeScript) (characterRefs : List String) : String :=
  let characterPrompts := String.intercalate ", " (scene.characters.map fun n =>
    match script.characters.find? (fun c => c.name == n) with
    | some c => c.name ++ " " ++ c.description
    | none => n)
  let base := scene.action ++ ", " ++ scene.setting ++ ", " ++ scene.mood ++ ", "
    ++ characterPrompts ++ ", " ++ orEmpty scene.cameraAngle ++ ", "
    ++ script.artStyle
    ++ ", highly detailed, professional lighting --ar 16:9 --v 6 --style raw"
  let withRefs := characterRefs.foldl (fun acc ref => acc ++ " --cref " ++ ref) base
  if scene.sceneNumber > 1 then
    if existsSync firstSceneRefPath then withRefs ++ " --sref " ++ firstSceneRefPath
    else withRefs
  else withRefs

end MJ.A1

namespace MJ.An

/-! Embedding of the second document of `src/example/anime.ts`: the
progress-ledger pipeline.  `main` loads the ledger (`loadProgress`),
optionally merges a previously saved `character_references.json` summary
into the in-memory `characterRefs`/`characterFiles` records, runs the
character loop and then the scene loop — each item guarded by the ledger,
each success followed by `progress.push(...)` and `saveProgress` — and
finally writes the reference summary.  `generateCharacter` and
`generateScene` *throw* on a null `Imagine` result, a null/uri-less
`Upscale` result, and on a failed download; the only catch sits outside
both loops, so a thrown item error ends the run (the `finally` then closes
the client). -/

/-- One entry of the hardcoded `story.mainCharacters`. -/
structure MainCharacter where
  name : String
  description : String
  prompt : String

/-- One entry of the hardcoded `story.scenes`: the prompt is a function of
the `characterRefs` record. -/
structure StoryScene where
  title : String
  prompt : List (String × String) → String

/-- The shape of the hardcoded `story` object. -/
structure Story where
  title : String
  artStyle : String
  mainCharacters : List MainCharacter
  scenes : List StoryScene

/-- The Midjourney message shape consumed by this pipeline (`result.id`,
`result.hash`, `result.flags`, `upscaled?.uri`). -/
structure GenResult where
  id : String
  hash : String
  flags : Nat
  uri : Option String
  deriving DecidableEq

/-- External collaborators of the ledger pipeline: the client, the
`fetch`+`fs.writeFile` pair of its `downloadImage` (which does *not* catch
failures), and the optional pre-existing `character_references.json`
summary (`uris` and `files` maps). -/
structure World where
  imagine : String → Option GenResult
  upscale : String → String → Nat → Option GenResult
  fetchOk : String → Bool
  refsFile : Option (List (String × String) × List (String × String))

/-- JavaScript record access `charRefs[k]` as interpolated into a template
literal: a missing key interpolates as the literal text "undefined". -/
def jsGet (m : List (String × String)) (k : String) : String := jsStr (m.lookup k)

/-- `path.join("output/character_images", name + ".png")`. -/
def charImagePath (name : String) : String :=
  "output/character_images/" ++ name ++ ".png"

/-- `path.join("output/scene_images", title + ".png")`. -/
def sceneImagePath (title : String) : String :=
  "output/scene_images/" ++ title ++ ".png"

/-- `downloadImage` of the ledger pipeline: `fetch` then `fs.writeFile`,
with no try/catch — a failure propagates to the caller.  Returns the trace
and whether it succeeded. -/
def downloadImage (w : World) (url filepath : String) : List Event × Bool :=
  if w.fetchOk url then ([.download url filepath], true)
  else ([.downloadFail url filepath], false)

/-- `generateCharacter` of the ledger pipeline.  A null `Imagine` result, a
null `Upscale` result or a falsy `upscaled.uri`, and a failed download all
throw (`Except.error`); on success it returns the upscaled uri and the
written file path. -/
def generateCharacter (w : World) (c : MainCharacter) :
    List Event × Except String (String × String) :=
  match w.imagine c.prompt with
  | none => ([.imagineCall .character c.prompt],
             .error ("Failed to generate character " ++ c.name))
  | some result =>
    match w.upscale result.id result.hash result.flags with
    | none => ([.imagineCall .character c.prompt, .upscaleCall result.id],
               .error ("Failed to upscale character " ++ c.name))
    | some upscaled =>
      match upscaled.uri with
      | none => ([.imagineCall .character c.prompt, .upscaleCall result.id],
                 .error ("Failed to upscale character " ++ c.name))
      | some uri =>
        if uri = "" then
          ([.imagineCall .character c.prompt, .upscaleCall result.id],
           .error ("Failed to upscale character " ++ c.name))
        else
          let fp := charImagePath c.name
          let dl := downloadImage w uri fp
          if dl.2 then
            ([.imagineCall .character c.prompt, .upscaleCall result.id] ++ dl.1,
             .ok (uri, fp))
          else
            ([.imagineCall .character c.prompt, .upscaleCall result.id] ++ dl.1,
             .error "download failed")

/-- `generateScene` of the ledger pipeline; the prompt is the scene's
template applied to the current `characterRefs` record. -/
def generateScene (w : World) (scene : StoryScene)
    (characterRefs : List (String × String)) : List Event × Except String String :=
  let prompt := scene.prompt characterRefs
  match w.imagine prompt with
  | none => ([.imagineCall .scene prompt],
             .error ("Failed to generate scene " ++ scene.title))
  | some result =>
    match w.upscale result.id result.hash result.flags with
    | none => ([.imagineCall .scene prompt, .upscaleCall result.id],
               .error ("Failed to upscale scene " ++ scene.title))
    | some upscaled =>
      match upscaled.uri with
      | none => ([.imagineCall .scene prompt, .upscaleCall result.id],
                 .error ("Failed to upscale scene " ++ scene.title))
      | some uri =>
        if uri = "" then
          ([.imagineCall .scene prompt, .upscaleCall result.id],
           .error ("Failed to upscale scene " ++ scene.title))
        else
          let fp := sceneImagePath scene.title
          let dl := downloadImage w uri fp
          if dl.2 then
            ([.imagineCall .scene prompt, .upscaleCall result.id] ++ dl.1, .ok fp)
          else
            ([.imagineCall .scene prompt, .upscaleCall result.id] ++ dl.1,
             .error "download failed")

/-- Mutable state of `main`: the trace so far, the in-memory `progress`
object, the last durably saved ledger, and the `characterRefs` /
`characterFiles` records (association lists whose head is the most recent
assignment). -/
structure RunState where
  events : List Event
  progress : ProgressState
  savedLedger : ProgressState
  refs : List (String × String)
  files : List (String × String)

/-- The character loop of `main`: skip items whose name the ledger already
holds; otherwise generate, record the reference and file, push the name and
save the ledger.  A thrown error ends the loop (and, in `main`, the run);
the `Bool` tells whether the loop completed without throwing. -/
def charPhase (w : World) : List MainCharacter → RunState → RunState × Bool
  | [], st => (st, true)
  | c :: cs, st =>
    if st.progress.completedCharacters.contains c.name then charPhase w cs st
    else
      let g := generateCharacter w c
      match g.2 with
      | .error _ => ({ st with events := st.events ++ g.1 }, false)
      | .ok (uri, fp) =>
        let nextProgress : ProgressState :=
          { st.progress with
            completedCharacters := st.progress.completedCharacters ++ [c.name] }
        charPhase w cs
          { events := st.events ++ g.1 ++ [Event.ledgerSave nextProgress]
            progress := nextProgress
            savedLedger := nextProgress
            refs := (c.name, uri) :: st.refs
            files := (c.name, fp) :: st.files }

/-- The scene loop of `main`: skip items whose title the ledger already
holds; otherwise generate, push the title and save the ledger.  The
`characterRefs` record is only read, never written, in this loop. -/
def scenePhase (w : World) : List StoryScene → RunState → RunState × Bool
  | [], st => (st, true)
  | s :: ss, st =>
    if st.progress.completedScenes.contains s.title then scenePhase w ss st
    else
      let g := generateScene w s st.refs
      match g.2 with
      | .error _ => ({ st with events := st.events ++ g.1 }, false)
      | .ok _ =>
        let nextProgress : ProgressState :=
          { st.progress with
            completedScenes := st.progress.completedScenes ++ [s.title] }
        scenePhase w ss
          { st with
            events := st.events ++ g.1 ++ [Event.ledgerSave nextProgress]
            progress := nextProgress
            savedLedger := nextProgress }

/-- State at the top of the try block of `main`: `ensureDirectories` has
made the two output directories, `loadProgress` has produced `ledger`, and
the optional `character_references.json` summary has been merged into the
fresh `characterRefs`/`characterFiles` records. -/
def initState (w : World) (ledger : ProgressState) : RunState :=
  { events := [.mkdirCall "output/character_images",
               .mkdirCall "output/scene_images"],
    progress := ledger, savedLedger := ledger,
    refs := (w.refsFile.map Prod.fst).getD [],
    files := (w.refsFile.map Prod.snd).getD [] }

/-- The `characterRefs` record as it stands when the scene loop begins. -/
def charPhaseRefs (w : World) (story : Story) (ledger : ProgressState) :
    List (String × String) :=
  (charPhase w story.mainCharacters (initState w ledger)).1.refs

/-- `main` of the ledger pipeline (from `loadProgress` onward): character
loop, then scene loop, then — only if nothing threw — the final
`character_references.json` write.  The catch block only logs, and
`client.Close()` in the `finally` performs no traced effect. -/
def runMain (w : World) (story : Story) (ledger : ProgressState) : RunState :=
  let r1 := charPhase w story.mainCharacters (initState w ledger)
  if r1.2 then
    let r2 := scenePhase w story.scenes r1.1
    if r2.2 then
      { r2.1 with events := r2.1.events ++ [.refsWrite r2.1.refs r2.1.files] }
    else r2.1
  else r1.1

end MJ.An

namespace MJ.An

/-! The hardcoded `story` object of the ledger pipeline, embedded verbatim.
Apostrophes inside the source strings are spelled via `apo`.  Each scene's
`prompt` is the source's arrow function of the `charRefs` record; the
template-literal interpolation `${charRefs.Name}` is `jsGet refs "Name"`
(a missing key interpolates as the literal text "undefined"). -/

/-- `story.mainCharacters[0]` ("Zoey"). -/
def chZoey : MainCharacter :=
  { name := "Zoey"
    description := "A beautiful woman in her early thirties with tired eyes and worry lines. Professional attire suggesting her career as an interior designer. Exhausted but determined expression."
    prompt := "Beautiful woman in early thirties, tired eyes, professional attire, exhausted but determined expression, interior designer appearance --style raw --ar 1:1 --v 6" }

/-- `story.mainCharacters[1]` ("Blaine"). -/
def chBlaine : MainCharacter :=
  { name := "Blaine"
    description := "A handsome surgeon in his mid-thirties wearing professional medical attire. Charismatic appearance with subtle signs of emotional pain. Wealthy and sophisticated demeanor."
    prompt := "Handsome male surgeon in mid-thirties, sophisticated appearance, professional medical attire, charismatic yet melancholic expression --style raw --ar 1:1 --v 6" }

/-- `story.mainCharacters[2]` ("Max"). -/
def chMax : MainCharacter :=
  { name := "Max"
    description := "A brave four-year-old boy with pale skin due to illness. Bright eyes full of hope despite medical equipment around him. Gentle smile and thinning hair."
    prompt := "Four-year-old boy with pale skin, bright hopeful eyes, gentle smile, thinning hair, medical patient appearance --style raw --ar 1:1 --v 6" }

/-- `story.mainCharacters[3]` ("Sophia"). -/
def chSophia : MainCharacter :=
  { name := "Sophia"
    description := "A beautiful woman in her early thirties from a wealthy background. Initially kind appearance masking growing inner conflict. Sophisticated and well-dressed."
    prompt := "Beautiful sophisticated woman in early thirties, wealthy appearance, kind face with hint of inner conflict, designer clothing --style raw --ar 1:1 --v 6" }

/-- `story.mainCharacters[4]` ("Mother"). -/
def chMother : MainCharacter :=
  { name := "Mother"
    description := "A kind and worried woman in her late fifties. Gentle features with concern etched on her face. Casual but elegant attire."
    prompt := "Kind worried woman in late fifties, gentle features, concerned expression, casual elegant clothing --style raw --ar 1:1 --v 6" }

/-- `story.scenes[0]`. -/
def scene1 : StoryScene :=
  { title := "The Passionate Reunion"
    prompt := fun refs =>
      "Intimate hospital room setting, Zoey (wearing professional attire, vulnerable expression) turning away from Blaine (in doctor"
        ++ apo ++ "s coat, intense gaze). Tension-filled atmosphere with medical equipment in background, dramatic shadows emphasizing their emotional connection, warm lighting highlighting their faces. Close physical proximity suggesting unresolved feelings --cref "
        ++ jsGet refs "Zoey" ++ " " ++ jsGet refs "Blaine" ++ " --ar 1:1 --v 6" }

/-- `story.scenes[1]`. -/
def scene2 : StoryScene :=
  { title := "The Necklace Confrontation"
    prompt := fun refs =>
      "Night scene at Blaine" ++ apo
        ++ "s doorstep, Zoey (distressed, desperate expression) facing Blaine (conflicted, holding a meaningful necklace). Dramatic porch lighting casting shadows on their faces, urban background with city lights, emphasis on the emotional tension between them --cref "
        ++ jsGet refs "Zoey" ++ " " ++ jsGet refs "Blaine" ++ " --ar 1:1 --v 6" }

/-- `story.scenes[2]`. -/
def scene3 : StoryScene :=
  { title := "Sofia" ++ apo ++ "s Discovery"
    prompt := fun refs =>
      "Elegant living room, Sofia (wearing the contested necklace, defiant expression) confronting Blaine (tense, angry stance). Rich interior decor reflecting wealth, dramatic lighting emphasizing the conflict, focus on the necklace around Sofia"
        ++ apo ++ "s neck --cref "
        ++ jsGet refs "Sophia" ++ " " ++ jsGet refs "Blaine" ++ " --ar 1:1 --v 6" }

/-- `story.scenes[3]`. -/
def scene4 : StoryScene :=
  { title := "The Secret Escape"
    prompt := fun refs =>
      "Hospital corridor at night, Blaine (in doctor" ++ apo
        ++ "s coat, gentle expression) crouching down to Max" ++ apo
        ++ "s level (pale but excited young patient in hospital gown). Warm lighting from overhead, medical equipment in background, intimate moment between them as they plan their adventure --cref "
        ++ jsGet refs "Blaine" ++ " " ++ jsGet refs "Max" ++ " --ar 1:1 --v 6" }

/-- `story.scenes[4]`. -/
def scene5 : StoryScene :=
  { title := "The Pet Store Mission"
    prompt := fun refs =>
      "Colorful pet store interior, Blaine (caring expression, casual clothes) helping Max (excited despite illness, wearing comfortable clothes) choose a pet. Vibrant display of animal cages and supplies, warm lighting emphasizing their bonding moment --cref "
        ++ jsGet refs "Blaine" ++ " " ++ jsGet refs "Max" ++ " --ar 1:1 --v 6" }

/-- `story.scenes[5]`. -/
def scene6 : StoryScene :=
  { title := "Mother" ++ apo ++ "s Comfort"
    prompt := fun refs =>
      "Hospital waiting area, Zoey (exhausted, emotional) being comforted by her mother (concerned, supportive stance). Soft ambient lighting, medical facility backdrop, focus on their emotional interaction as they discuss Max"
        ++ apo ++ "s treatment --cref "
        ++ jsGet refs "Zoey" ++ " " ++ jsGet refs "Mother" ++ " --ar 1:1 --v 6" }

/-- `story.scenes[6]`. -/
def scene7 : StoryScene :=
  { title := "The Shocking Discovery"
    prompt := fun refs =>
      "Hospital hallway intersection, Zoey (frozen in shock) witnessing Blaine (protective stance) with Max (happy despite illness). Medical equipment and signage visible, dramatic lighting highlighting Zoey"
        ++ apo ++ "s realization, multiple perspective view capturing all three characters"
        ++ apo ++ " expressions --cref "
        ++ jsGet refs "Zoey" ++ " " ++ jsGet refs "Blaine" ++ " " ++ jsGet refs "Max"
        ++ " --ar 1:1 --v 6" }

/-- The hardcoded `story` object. -/
def story : Story :=
  { title := "Seasons of the Heart"
    artStyle := "Generate a photo-realistic image with ultra-high detail and cinematic lighting, capturing lifelike skin textures, natural expressions, and realistic shadows. Aim for a sharp, DSLR-quality look that emphasizes authentic human features and rich color tones."
    mainCharacters := [chZoey, chBlaine, chMax, chSophia, chMother]
    scenes := [scene1, scene2, scene3, scene4, scene5, scene6, scene7] }

end MJ.An

namespace MJ

/-! Trace checkers used to state the ledger and phase-ordering claims. -/

/-- When `new` extends `old` by exactly one appended element, that element;
otherwise `none`. -/
def newItems (old new : List String) : Option String :=
  if new.take old.length = old then
    match new.drop old.length with
    | [x] => some x
    | _ => none
  else none

/-- State of the ledger audit: artifact paths downloaded so far, the last
observed ledger contents, and whether every ledger write so far was valid. -/
structure LedgerAudit where
  downloaded : List String
  cur : ProgressState
  ok : Bool

/-- One audit step.  A `ledgerSave` is valid when it appends exactly one
item (character name or scene title) to the previous ledger contents,
leaves the other item set unchanged, and the artifact of that item was
downloaded by an earlier event of the trace. -/
def ledgerStep (a : LedgerAudit) (e : Event) : LedgerAudit :=
  match e with
  | .download _ fp => { a with downloaded := fp :: a.downloaded }
  | .ledgerSave st =>
    let okNew :=
      match newItems a.cur.completedCharacters st.completedCharacters,
            newItems a.cur.completedScenes st.completedScenes with
      | some c, none =>
        decide (st.completedScenes = a.cur.completedScenes)
          && a.downloaded.contains (An.charImagePath c)
      | none, some s =>
        decide (st.completedCharacters = a.cur.completedCharacters)
          && a.downloaded.contains (An.sceneImagePath s)
      | _, _ => false
    { a with cur := st, ok := a.ok && okNew }
  | _ => a

/-- Whether a trace that started from ledger contents `init` writes the
ledger only in valid single-item steps whose artifact was already
downloaded. -/
def ledgerAudit (evs : List Event) (init : ProgressState) : Bool :=
  (evs.foldl ledgerStep { downloaded := [], cur := init, ok := true }).ok

/-- Scan for phase ordering: once a scene-phase `Imagine` call has been
seen, no character-phase `Imagine` call may follow. -/
def phaseAux : Bool → List Event → Bool
  | _, [] => true
  | seenScene, e :: rest =>
    match e with
    | .imagineCall .character _ => if seenScene then false else phaseAux seenScene rest
    | .imagineCall .scene _ => phaseAux true rest
    | _ => phaseAux seenScene rest

/-- Whether every character-phase `Imagine` call of the trace precedes
every scene-phase `Imagine` call. -/
def phaseOrdered (evs : List Event) : Bool := phaseAux false evs

end MJ

namespace MJ.Ex

/-- A possibly-empty field as a list contribution: empty fields are
omitted.  Used by the spec-side rendering of claim C7. -/
def optPart (s : String) : List String := if s = "" then [] else [s]

/-- Modelled from the spec wording of claim C7: the scene prompt parts as
the ordered concatenation of quality boilerplate, per-character clauses,
action, "in setting", mood, optional camera angle, script art style, the
lighting/composition directive and the format directives, with every empty
or absent optional field omitted rather than rendered as an empty token.
This is the comparison point of the refinement proof; the executable
builder above is `buildScenePrompt`, translated from the source. -/
def scenePromptPartsSpec (scene : Scene) (script : AnimeScript) : List String :=
  ["masterpiece, best quality"]
    ++ optPart (String.intercalate " and " (scene.characters.map (characterClause script)))
    ++ optPart scene.action
    ++ ["in " ++ scene.setting]
    ++ optPart scene.mood
    ++ optPart (orEmpty scene.cameraAngle)
    ++ optPart script.artStyle
    ++ ["detailed lighting, perfect composition", "--ar 16:9 --v 6 --style raw"]

/-- Spec-side scene prompt (claim C7 wording): filtered parts joined with
", ", then the reference-injection suffix. -/
def buildScenePromptSpec (scene : Scene) (script : AnimeScript)
    (refs : List (String × String)) : String :=
  String.intercalate ", " (scenePromptPartsSpec scene script)
    ++ crefSuffix scene.characters refs

end MJ.Ex

namespace MJ

/-! Concrete worlds, scripts and ledgers used as counterexample inputs and
witness inputs below. -/

/-- An `exampleScript.ts` world whose backend always fails. -/
def c1ExWorld : Ex.World :=
  { imagine := fun _ => none
    fetchOk := fun _ => true
    writeOk := fun _ => true
    now := "2024-01-01T00:00:00.000Z" }

/-- A two-character script. -/
def c1Script : AnimeScript :=
  { title := "t"
    style := "anime"
    artStyle := "soft style"
    characters := [{ name := "A", description := "dA", stylePrompt := "sA" },
                   { name := "B", description := "dB", stylePrompt := "sB" }]
    scenes := [] }

/-- A ledger-pipeline world whose `Imagine` always returns null. -/
def c1World : An.World :=
  { imagine := fun _ => none
    upscale := fun _ _ _ => none
    fetchOk := fun _ => true
    refsFile := none }

/-- A ledger-pipeline world whose backend always succeeds, with no
pre-existing `character_references.json`. -/
def okWorld : An.World :=
  { imagine := fun _ => some { id := "msg1", hash := "hash1", flags := 0, uri := some "http://grid" }
    upscale := fun _ _ _ => some { id := "up1", hash := "hash2", flags := 0, uri := some "http://upscaled" }
    fetchOk := fun _ => true
    refsFile := none }

/-- The titles of all seven hardcoded scenes. -/
def allSceneTitles : List String :=
  [An.scene1.title, An.scene2.title, An.scene3.title, An.scene4.title,
   An.scene5.title, An.scene6.title, An.scene7.title]

/-- The names of all five hardcoded characters. -/
def allCharacterNames : List String :=
  ["Zoey", "Blaine", "Max", "Sophia", "Mother"]

/-- A ledger marking every item of the hardcoded story complete. -/
def c2Ledger : ProgressState :=
  { completedCharacters := allCharacterNames, completedScenes := allSceneTitles }

/-- A ledger with exactly one pending character ("Zoey") and no pending
scenes. -/
def c3Ledger : ProgressState :=
  { completedCharacters := ["Blaine", "Max", "Sophia", "Mother"]
    completedScenes := allSceneTitles }

/-- A successful world carrying a pre-existing reference summary for
"Zoey". -/
def c4World : An.World :=
  { imagine := okWorld.imagine
    upscale := okWorld.upscale
    fetchOk := fun _ => true
    refsFile := some ([("Zoey", "http://old")], [("Zoey", "old.png")]) }

/-- A ledger marking every character and every scene but the first
complete. -/
def c4Ledger : ProgressState :=
  { completedCharacters := allCharacterNames
    completedScenes := [An.scene2.title, An.scene3.title, An.scene4.title,
                        An.scene5.title, An.scene6.title, An.scene7.title] }

/-- A ledger marking every character complete and no scene complete. -/
def c10Ledger : ProgressState :=
  { completedCharacters := allCharacterNames, completedScenes := [] }

/-- First variation of the C5 witness response. -/
def c5v1 : Variation := { id := "v51", hash := "vh51", uri := "http://v51" }

/-- Second variation of the C5 witness response. -/
def c5v2 : Variation := { id := "v52", hash := "vh52", uri := "http://v52" }

/-- Backend response with two variations, used by the C5 witness. -/
def c5im : MJResponse :=
  { id := "img5", hash := "h5", flags := 0, uri := some "http://grid5"
    options := some [c5v1, c5v2] }

/-- A fully successful `exampleScript.ts` world returning `c5im`. -/
def c5World : Ex.World :=
  { imagine := fun _ => some c5im
    fetchOk := fun _ => true
    writeOk := fun _ => true
    now := "2024-01-01T00:00:00.000Z" }

/-- Backend response with a single variation, used for claim C6. -/
def c6im : MJResponse :=
  { id := "img6", hash := "h6", flags := 0, uri := some "http://grid6"
    options := some [{ id := "v61", hash := "vh61", uri := "http://v61" }] }

/-- A world where every artifact download fails (`fetchOk` false) but the
metadata write succeeds. -/
def c6World : Ex.World :=
  { imagine := fun _ => some c6im
    fetchOk := fun _ => false
    writeOk := fun _ => true
    now := "2024-01-01T00:00:00.000Z" }

/-- A world where the metadata write fails. -/
def c6WorldMetaFail : Ex.World :=
  { imagine := fun _ => some c6im
    fetchOk := fun _ => true
    writeOk := fun _ => false
    now := "2024-01-01T00:00:00.000Z" }

/-- Single character used by claim C6. -/
def c6Char : Character := { name := "A", description := "d", stylePrompt := "s" }

/-- Scene used by the C7 witness: one known character, one unknown
character, no camera angle. -/
def c7Scene : Scene :=
  { sceneNumber := 1
    description := "d"
    characters := ["A", "Ghost"]
    setting := "the yard"
    mood := ""
    cameraAngle := none
    action := "waves" }

/-- Script used by the C7 witness. -/
def c7Script : AnimeScript :=
  { title := "t"
    style := "anime"
    artStyle := "arty"
    characters := [{ name := "A", description := "dA", stylePrompt := "sA" }]
    scenes := [] }

/-- Scene with `sceneNumber > 1`, used for claim C8. -/
def c8Scene : Scene :=
  { sceneNumber := 2
    description := "d"
    characters := []
    setting := "set"
    mood := "m"
    cameraAngle := none
    action := "a" }

/-- Script used for claim C8. -/
def c8Script : AnimeScript :=
  { title := "t", style := "anime", artStyle := "x", characters := [], scenes := [] }

end MJ

namespace MJ

/-! Helper lemmas (shared; not claim theorems). -/

/-- `filter(Boolean)` over a cons: the head survives exactly when it is
non-empty. -/
theorem filter_ne_cons (s : String) (l : List String) :
    (s :: l).filter (fun x => x != "") = Ex.optPart s ++ l.filter (fun x => x != "") := by
  by_cases h : s = ""
  · subst h; simp [Ex.optPart]
  · simp [Ex.optPart, h, List.filter_cons]

/-- A string of the shape "in " ++ s is never empty. -/
theorem optPart_in (s : String) : Ex.optPart ("in " ++ s) = ["in " ++ s] := by
  unfold Ex.optPart
  rw [if_neg]
  intro h
  have hl := congrArg String.length h
  simp [String.length_append] at hl
  exact absurd hl.1 (by decide)

/-- The filtered parts array equals the spec-side parts list. -/
theorem scenePromptParts_filter (scene : Scene) (script : AnimeScript) :
    (Ex.scenePromptParts scene script).filter (fun s => s != "")
      = Ex.scenePromptPartsSpec scene script := by
  unfold Ex.scenePromptParts Ex.scenePromptPartsSpec
  simp only [filter_ne_cons, List.filter_nil, optPart_in]
  have h1 : Ex.optPart "masterpiece, best quality" = ["masterpiece, best quality"] := by decide
  have h2 : Ex.optPart "detailed lighting, perfect composition"
      = ["detailed lighting, perfect composition"] := by decide
  have h3 : Ex.optPart "--ar 16:9 --v 6 --style raw" = ["--ar 16:9 --v 6 --style raw"] := by decide
  rw [h1, h2, h3]
  simp [List.append_assoc]

end MJ

namespace MJ

/-- Claim C7: for every scene, `buildScenePrompt` of `exampleScript.ts`
produces the ordered concatenation of quality boilerplate, per-character
clauses ("name (description, stylePrompt)" for a known name, the bare name
for an unknown one, without raising), action, "in setting", mood, optional
camera angle, script art style, the lighting/composition directive and the
format directives, with every empty or absent optional field omitted
rather than rendered as an empty token (filter-then-join): the builder
equals the spec-side rendering `buildScenePromptSpec`, and an unknown
character name contributes exactly its bare name clause. -/
theorem c7_scene_prompt_composition :
    (∀ (scene : Scene) (script : AnimeScript) (refs : List (String × String)),
      Ex.buildScenePrompt scene script refs = Ex.buildScenePromptSpec scene script refs)
    ∧ (∀ (script : AnimeScript) (n : String),
      script.characters.find? (fun c => c.name == n) = none →
      Ex.characterClause script n = n) := by
  constructor
  · intro scene script refs
    unfold Ex.buildScenePrompt Ex.buildScenePromptSpec
    rw [scenePromptParts_filter]
  · intro script n h
    simp [Ex.characterClause, h]

/-- Witness for C7 at a concrete scene: one known character ("A"), one
unknown character ("Ghost"), empty mood, absent camera angle. -/
theorem c7_witness :
    Ex.buildScenePrompt c7Scene c7Script [] = Ex.buildScenePromptSpec c7Scene c7Script []
    ∧ Ex.characterClause c7Script "Ghost" = "Ghost" :=
  ⟨c7_scene_prompt_composition.1 c7Scene c7Script [],
   c7_scene_prompt_composition.2 c7Script "Ghost" (by decide)⟩

/-- Claim C8 (counterexample): the scene-prompt builder of the first
`anime.ts` document is not a pure function of (entity, reference map,
style): at a scene with `sceneNumber = 2` and identical inputs, two
filesystem states (the probed `scene_001.png` absent vs present) produce
different prompt strings, so output depends on external state. -/
theorem c8_counterexample :
    A1.buildScenePrompt (fun _ => false) c8Scene c8Script []
      ≠ A1.buildScenePrompt (fun _ => true) c8Scene c8Script [] := by decide

/-- Claim C8 (amended): the prompt builders of `exampleScript.ts` take
only (entity, script, reference map) and are therefore deterministic by
construction, but the scene builder of the first `anime.ts` document also
consults the filesystem through the single probe
`existsSync(anime_output/scene_001.png)` (reachable when
`sceneNumber > 1`).  Its output is identical across two runs exactly when
the two filesystem states agree on that one probed path. -/
theorem c8_amended (e1 e2 : String → Bool) (scene : Scene) (script : AnimeScript)
    (refs : List String) (h : e1 A1.firstSceneRefPath = e2 A1.firstSceneRefPath) :
    A1.buildScenePrompt e1 scene script refs = A1.buildScenePrompt e2 scene script refs := by
  unfold A1.buildScenePrompt
  rw [h]

/-- Witness for the amended C8: two distinct filesystem oracles that agree
on the probed path yield the same prompt. -/
theorem c8_amended_witness :
    A1.buildScenePrompt (fun _ => true) c8Scene c8Script []
      = A1.buildScenePrompt (fun p => p == A1.firstSceneRefPath) c8Scene c8Script [] :=
  c8_amended _ _ _ _ _ (by decide)

/-- Claim C9: in the reference-injection loop of `buildScenePrompt`
(`exampleScript.ts`), the weight directive " --cw 1" is attached only to
the chunk of the character at index 0.  When the first-listed character
has no truthy resolved handle its chunk is empty — so no weight directive
appears anywhere, even though later-listed resolved characters still get
their " --cref" chunks (the emphasis does not transfer). -/
theorem c9_cw_only_first (refs : List (String × String)) (c : String) (rest : List String) :
    (∀ (scene : Scene) (script : AnimeScript), scene.characters = c :: rest →
      Ex.buildScenePrompt scene script refs
        = String.intercalate ", " ((Ex.scenePromptParts scene script).filter (fun s => s != ""))
          ++ (Ex.crefChunk refs c 0 ++ Ex.crefSuffixAux refs 1 rest))
    ∧ (refs.lookup c = none ∨ refs.lookup c = some "" → Ex.crefChunk refs c 0 = "")
    ∧ (∀ r, refs.lookup c = some r → r ≠ "" →
      Ex.crefChunk refs c 0 = " --cref " ++ r ++ " --cw 1")
    ∧ (∀ (n : String) (i : Nat), i ≠ 0 →
      Ex.crefChunk refs n i = ""
        ∨ ∃ r, refs.lookup n = some r ∧ Ex.crefChunk refs n i = " --cref " ++ r) := by
  refine ⟨?_, ?_, ?_, ?_⟩
  · intro scene script hchars
    unfold Ex.buildScenePrompt Ex.crefSuffix
    rw [hchars]
    rfl
  · intro h
    rcases h with h | h <;> simp [Ex.crefChunk, h]
  · intro r h hr
    simp [Ex.crefChunk, h, hr]
  · intro n i hi
    unfold Ex.crefChunk
    cases hl : refs.lookup n with
    | none => exact Or.inl rfl
    | some r =>
      by_cases hr : r = ""
      · simp [hr]
      · refine Or.inr ⟨r, rfl, ?_⟩
        simp [hr, hi, String.append_empty]

/-- Witness for C9: with `refs = [("B", "rb")]` and scene characters
`["A", "B"]`, the first-listed character "A" is unresolved so its chunk is
empty, while the later-listed resolved "B" still gets a plain " --cref"
chunk with no weight directive. -/
theorem c9_witness :
    Ex.crefChunk [("B", "rb")] "A" 0 = ""
    ∧ (Ex.crefChunk [("B", "rb")] "B" 1 = ""
        ∨ ∃ r, ([("B", "rb")] : List (String × String)).lookup "B" = some r
            ∧ Ex.crefChunk [("B", "rb")] "B" 1 = " --cref " ++ r) :=
  ⟨(c9_cw_only_first [("B", "rb")] "A" ["B"]).2.1 (Or.inl rfl),
   (c9_cw_only_first [("B", "rb")] "A" ["B"]).2.2.2 "B" 1 (by decide)⟩

end MJ

namespace MJ

/-- A download attempt with a succeeding fetch produces exactly its
`download` event. -/
theorem downloadImage_ok (w : Ex.World) {u : String} (h : w.fetchOk u = true)
    (p : String) : Ex.downloadImage w u p = [.download u p] := by
  simp [Ex.downloadImage, h]

/-- Under a fully reliable fetch, the per-variation download loop produces
one `download` event per variation. -/
theorem flatten_var_downloads (w : Ex.World) (hfetch : ∀ u, w.fetchOk u = true)
    (l : List (Nat × Variation)) (f : Nat × Variation → String) :
    ((l.map fun p => Ex.downloadImage w p.2.uri (f p)).flatten)
      = l.map fun p => Event.download p.2.uri (f p) := by
  induction l with
  | nil => rfl
  | cons a t ih =>
    simp only [List.map_cons, List.flatten_cons, ih]
    simp [Ex.downloadImage, hfetch]

/-- On a successful generation with at least one variation and a
succeeding metadata write, `generateAndSelectVariation` returns the
backend response with its `uri` replaced by the first variation's uri. -/
theorem genSel_result (w : Ex.World) (prompt outputName : String) (ty : ItemKind)
    (im : MJResponse) (v0 : Variation) (vs : List Variation)
    (him : w.imagine prompt = some im) (hopt : im.options = some (v0 :: vs))
    (hwrite : w.writeOk (Ex.metadataPath ty outputName) = true) :
    (Ex.generateAndSelectVariation w prompt outputName ty).2
      = some { im with uri := some v0.uri } := by
  simp [Ex.generateAndSelectVariation, him, hopt, hwrite]

/-- On a successful generation whose metadata write fails, the exception is
caught and `generateAndSelectVariation` returns null. -/
theorem genSel_metaFail (w : Ex.World) (prompt outputName : String) (ty : ItemKind)
    (im : MJResponse) (v0 : Variation) (vs : List Variation)
    (him : w.imagine prompt = some im) (hopt : im.options = some (v0 :: vs))
    (hwrite : w.writeOk (Ex.metadataPath ty outputName) = false) :
    (Ex.generateAndSelectVariation w prompt outputName ty).2 = none := by
  simp [Ex.generateAndSelectVariation, him, hopt, hwrite]

end MJ

namespace MJ

/-- Claim C5: on a successful generation result with non-empty variation
list `v0 :: vs` (and reliable persistence), every variation is downloaded
into the variations area at its 1-based index path, the canonical artifact
downloaded to the main path is `v0` (the first variation, no quality
heuristic), the metadata records `v0.id` as the selected variation, the
returned response carries `v0.uri` — and the reference handle recorded for
a character by `generateCharacterReferences` is exactly that first
variation's uri. -/
theorem c5_variation_selection (w : Ex.World) (prompt outputName : String)
    (ty : ItemKind) (im : MJResponse) (v0 : Variation) (vs : List Variation)
    (him : w.imagine prompt = some im) (hopt : im.options = some (v0 :: vs))
    (hfetch : ∀ u, w.fetchOk u = true) (hwrite : ∀ p, w.writeOk p = true) :
    Ex.generateAndSelectVariation w prompt outputName ty
      = (Event.imagineCall ty prompt
          :: Event.mkdirCall (Ex.variationsDir ty outputName)
          :: (((v0 :: vs).enum.map fun p =>
                Event.download p.2.uri (Ex.variationPath ty outputName (p.1 + 1)))
            ++ [Event.download v0.uri (Ex.mainImagePath ty outputName),
                Event.writeMeta (Ex.metadataPath ty outputName) prompt im.id v0.id
                  ((v0 :: vs).map fun o => (o.id, o.uri))
                  (Ex.mainImagePath ty outputName) w.now]),
         some { im with uri := some v0.uri })
    ∧ (∀ (c : Character) (refs : List (String × String)) (im2 : MJResponse)
        (u0 : Variation) (us : List Variation),
        w.imagine (Ex.buildCharacterPrompt c) = some im2 →
        im2.options = some (u0 :: us) → u0.uri ≠ "" →
        (Ex.charLoop w [c] refs).2 = (c.name, u0.uri) :: refs) := by
  constructor
  · simp [Ex.generateAndSelectVariation, him, hopt, hwrite,
      flatten_var_downloads w hfetch, downloadImage_ok w (hfetch v0.uri)]
  · intro c refs im2 u0 us him2 hopt2 hu
    have hres := genSel_result w (Ex.buildCharacterPrompt c)
      ("character_" ++ c.name.toLower) .character im2 u0 us him2 hopt2 (hwrite _)
    simp [Ex.charLoop, hres, hu]

/-- Witness for C5 at the concrete world `c5World`: the returned response
carries the first variation's uri and the recorded reference handle is the
first variation's uri. -/
theorem c5_witness :
    (Ex.generateAndSelectVariation c5World "p" "character_a" .character).2
      = some { c5im with uri := some c5v1.uri }
    ∧ (Ex.charLoop c5World [c6Char] []).2 = [(c6Char.name, c5v1.uri)] :=
  ⟨congrArg Prod.snd
      ((c5_variation_selection c5World "p" "character_a" .character c5im c5v1 [c5v2]
        rfl rfl (fun _ => rfl) (fun _ => rfl)).1),
   (c5_variation_selection c5World "p" "character_a" .character c5im c5v1 [c5v2]
        rfl rfl (fun _ => rfl) (fun _ => rfl)).2 c6Char [] c5im c5v1 [c5v2]
     rfl rfl (by decide)⟩

/-- Claim C6 (counterexample): an artifact write failure is NOT treated as
an item failure by `exampleScript.ts`: with every download failing
(`fetchOk` constantly false) but the metadata write succeeding,
`generateAndSelectVariation` still returns a non-null response, the trace
records the failed canonical download, and `generateCharacterReferences`
still records the character's reference handle — the item is treated as
successful. -/
theorem c6_counterexample :
    (Ex.generateAndSelectVariation c6World "p" "character_a" .character).2
      = some { c6im with uri := some "http://v61" }
    ∧ ((Ex.generateAndSelectVariation c6World "p" "character_a" .character).1.contains
        (Event.downloadFail "http://v61" (Ex.mainImagePath .character "character_a")) = true)
    ∧ (Ex.charLoop c6World [c6Char] []).2 = [("A", "http://v61")] := by
  refine ⟨rfl, by decide, rfl⟩

/-- Claim C6 (amended): of the two persistence effects, only the metadata
write failure is treated as an item failure (caught by the enclosing
try/catch, returning null so the item is not recorded); an artifact
download failure is caught and merely logged inside `downloadImage`, so
the item still completes with a non-null result (and, for a character, a
recorded reference handle), the failed canonical download being visible
only as a `downloadFail` trace event. -/
theorem c6_write_failure_amended (w : Ex.World) (prompt outputName : String)
    (ty : ItemKind) (im : MJResponse) (v0 : Variation) (vs : List Variation)
    (him : w.imagine prompt = some im) (hopt : im.options = some (v0 :: vs)) :
    (w.writeOk (Ex.metadataPath ty outputName) = false →
      (Ex.generateAndSelectVariation w prompt outputName ty).2 = none)
    ∧ (w.writeOk (Ex.metadataPath ty outputName) = true →
      (Ex.generateAndSelectVariation w prompt outputName ty).2
        = some { im with uri := some v0.uri })
    ∧ (w.fetchOk v0.uri = false →
      Event.downloadFail v0.uri (Ex.mainImagePath ty outputName)
        ∈ (Ex.generateAndSelectVariation w prompt outputName ty).1) := by
  refine ⟨fun hw => genSel_metaFail w prompt outputName ty im v0 vs him hopt hw,
    fun hw => genSel_result w prompt outputName ty im v0 vs him hopt hw, fun hf => ?_⟩
  by_cases hw : w.writeOk (Ex.metadataPath ty outputName) <;>
    simp [Ex.generateAndSelectVariation, him, hopt, hw, Ex.downloadImage, hf]

/-- Witness for the amended C6 at `c6WorldMetaFail` (metadata write fails:
null result) and `c6World` (download fails: non-null result and a
`downloadFail` event). -/
theorem c6_amended_witness :
    (Ex.generateAndSelectVariation c6WorldMetaFail "p" "character_a" .character).2 = none
    ∧ (Ex.generateAndSelectVariation c6World "p" "character_a" .character).2
        = some { c6im with uri := some "http://v61" }
    ∧ Event.downloadFail "http://v61" (Ex.mainImagePath .character "character_a")
        ∈ (Ex.generateAndSelectVariation c6World "p" "character_a" .character).1 := by
  have hv : c6im.options = some ({ id := "v61", hash := "vh61", uri := "http://v61" } :: []) := rfl
  refine ⟨(c6_write_failure_amended c6WorldMetaFail "p" "character_a" .character c6im
      _ _ rfl hv).1 rfl,
    (c6_write_failure_amended c6World "p" "character_a" .character c6im
      _ _ rfl hv).2.1 rfl,
    (c6_write_failure_amended c6World "p" "character_a" .character c6im
      _ _ rfl hv).2.2 rfl⟩

end MJ

namespace MJ

/-- Case analysis of `An.generateCharacter`: a null `Imagine`, a null or
uri-less `Upscale`, a failed download (each an `error`), or full success —
in which case the events are exactly Imagine, Upscale, and the download of
the upscaled uri to the character's image path. -/
theorem genChar_shape (w : An.World) (c : An.MainCharacter) :
    (∃ e, An.generateCharacter w c
        = ([Event.imagineCall .character c.prompt], Except.error e))
    ∨ (∃ m e, An.generateCharacter w c
        = ([Event.imagineCall .character c.prompt, Event.upscaleCall m], Except.error e))
    ∨ (∃ m u fp e, An.generateCharacter w c
        = ([Event.imagineCall .character c.prompt, Event.upscaleCall m,
            Event.downloadFail u fp], Except.error e))
    ∨ (∃ m u, An.generateCharacter w c
        = ([Event.imagineCall .character c.prompt, Event.upscaleCall m,
            Event.download u (An.charImagePath c.name)],
           Except.ok (u, An.charImagePath c.name))) := by
  unfold An.generateCharacter An.downloadImage
  rcases h1 : w.imagine c.prompt with _ | r
  · simp only [h1]; exact Or.inl ⟨_, rfl⟩
  · simp only [h1]
    rcases h2 : w.upscale r.id r.hash r.flags with _ | up
    · simp only [h2]; exact Or.inr (Or.inl ⟨_, _, rfl⟩)
    · simp only [h2]
      rcases h3 : up.uri with _ | u
      · simp only [h3]; exact Or.inr (Or.inl ⟨_, _, rfl⟩)
      · simp only [h3]
        by_cases h4 : u = ""
        · rw [if_pos h4]; exact Or.inr (Or.inl ⟨_, _, rfl⟩)
        · rw [if_neg h4]
          by_cases h5 : w.fetchOk u = true
          · simp only [h5, if_true]
            exact Or.inr (Or.inr (Or.inr ⟨_, _, rfl⟩))
          · simp only [Bool.not_eq_true] at h5
            simp only [h5, Bool.false_eq_true, if_false]
            exact Or.inr (Or.inr (Or.inl ⟨_, _, _, _, rfl⟩))

/-- Case analysis of `An.generateScene`, mirroring `genChar_shape`; the
submitted prompt is the scene template applied to the current reference
record. -/
theorem genScene_shape (w : An.World) (s : An.StoryScene) (refs : List (String × String)) :
    (∃ e, An.generateScene w s refs
        = ([Event.imagineCall .scene (s.prompt refs)], Except.error e))
    ∨ (∃ m e, An.generateScene w s refs
        = ([Event.imagineCall .scene (s.prompt refs), Event.upscaleCall m], Except.error e))
    ∨ (∃ m u fp e, An.generateScene w s refs
        = ([Event.imagineCall .scene (s.prompt refs), Event.upscaleCall m,
            Event.downloadFail u fp], Except.error e))
    ∨ (∃ m u, An.generateScene w s refs
        = ([Event.imagineCall .scene (s.prompt refs), Event.upscaleCall m,
            Event.download u (An.sceneImagePath s.title)],
           Except.ok (An.sceneImagePath s.title))) := by
  unfold An.generateScene An.downloadImage
  rcases h1 : w.imagine (s.prompt refs) with _ | r
  · simp only [h1]; exact Or.inl ⟨_, rfl⟩
  · simp only [h1]
    rcases h2 : w.upscale r.id r.hash r.flags with _ | up
    · simp only [h2]; exact Or.inr (Or.inl ⟨_, _, rfl⟩)
    · simp only [h2]
      rcases h3 : up.uri with _ | u
      · simp only [h3]; exact Or.inr (Or.inl ⟨_, _, rfl⟩)
      · simp only [h3]
        by_cases h4 : u = ""
        · rw [if_pos h4]; exact Or.inr (Or.inl ⟨_, _, rfl⟩)
        · rw [if_neg h4]
          by_cases h5 : w.fetchOk u = true
          · simp only [h5, if_true]
            exact Or.inr (Or.inr (Or.inr ⟨_, _, rfl⟩))
          · simp only [Bool.not_eq_true] at h5
            simp only [h5, Bool.false_eq_true, if_false]
            exact Or.inr (Or.inr (Or.inl ⟨_, _, _, _, rfl⟩))

/-- Appending exactly one element is recognized by `newItems`. -/
theorem newItems_append (l : List String) (x : String) : newItems l (l ++ [x]) = some x := by
  simp [newItems, List.take_left, List.drop_left]

/-- An unchanged list yields no new item. -/
theorem newItems_self (l : List String) : newItems l l = none := by
  simp [newItems, List.take_length, List.drop_length]

/-- A valid character-completing ledger write passes the audit step. -/
theorem ledgerStep_saveChar (dl : List String) (cur : ProgressState) (c : String)
    (hdl : dl.contains (An.charImagePath c) = true) :
    ledgerStep ⟨dl, cur, true⟩
        (Event.ledgerSave ⟨cur.completedCharacters ++ [c], cur.completedScenes⟩)
      = ⟨dl, ⟨cur.completedCharacters ++ [c], cur.completedScenes⟩, true⟩ := by
  simp [ledgerStep, newItems_append, newItems_self, hdl]
  exact List.mem_of_elem_eq_true hdl

/-- A valid scene-completing ledger write passes the audit step. -/
theorem ledgerStep_saveScene (dl : List String) (cur : ProgressState) (s : String)
    (hdl : dl.contains (An.sceneImagePath s) = true) :
    ledgerStep ⟨dl, cur, true⟩
        (Event.ledgerSave ⟨cur.completedCharacters, cur.completedScenes ++ [s]⟩)
      = ⟨dl, ⟨cur.completedCharacters, cur.completedScenes ++ [s]⟩, true⟩ := by
  simp [ledgerStep, newItems_append, newItems_self, hdl]
  exact List.mem_of_elem_eq_true hdl

end MJ

namespace MJ

/-- Character-loop invariant: if the audit of the trace so far is valid and
agrees with the in-memory progress, it stays so through the character loop
— every ledger write of the loop appends exactly the one character just
completed and is preceded by that character's artifact download. -/
theorem charPhase_audit (w : An.World) (init : ProgressState) :
    ∀ (cs : List An.MainCharacter) (st : An.RunState),
      (st.events.foldl ledgerStep ⟨[], init, true⟩).cur = st.progress →
      (st.events.foldl ledgerStep ⟨[], init, true⟩).ok = true →
      ((An.charPhase w cs st).1.events.foldl ledgerStep ⟨[], init, true⟩).cur
          = (An.charPhase w cs st).1.progress
        ∧ ((An.charPhase w cs st).1.events.foldl ledgerStep ⟨[], init, true⟩).ok
          = true := by
  intro cs
  induction cs with
  | nil => exact fun st h1 h2 => ⟨h1, h2⟩
  | cons c t ih =>
    intro st h1 h2
    by_cases hc : st.progress.completedCharacters.contains c.name = true
    · have hm : c.name ∈ st.progress.completedCharacters := List.mem_of_elem_eq_true hc
      have hcp : An.charPhase w (c :: t) st = An.charPhase w t st := by
        simp [An.charPhase, hm]
      rw [hcp]; exact ih st h1 h2
    · have hm : c.name ∉ st.progress.completedCharacters :=
        fun hmem => hc (List.elem_eq_true_of_mem hmem)
      rcases hA : st.events.foldl ledgerStep ⟨[], init, true⟩ with ⟨dl, cur, okb⟩
      rw [hA] at h1 h2
      dsimp at h1 h2
      subst h1; subst h2
      rcases genChar_shape w c with ⟨e, h⟩ | ⟨m, e, h⟩ | ⟨m, u, fp, e, h⟩ | ⟨m, u, h⟩
      · have hcp : An.charPhase w (c :: t) st
            = ({ st with events := st.events ++ [Event.imagineCall .character c.prompt] },
               false) := by
          simp [An.charPhase, hm, h]
        rw [hcp]
        constructor
        · show ((st.events ++ [Event.imagineCall .character c.prompt]).foldl ledgerStep
              ⟨[], init, true⟩).cur = st.progress
          rw [List.foldl_append, hA]; rfl
        · show ((st.events ++ [Event.imagineCall .character c.prompt]).foldl ledgerStep
              ⟨[], init, true⟩).ok = true
          rw [List.foldl_append, hA]; rfl
      · have hcp : An.charPhase w (c :: t) st
            = ({ st with events := st.events
                  ++ [Event.imagineCall .character c.prompt, Event.upscaleCall m] },
               false) := by
          simp [An.charPhase, hm, h]
        rw [hcp]
        constructor
        · show ((st.events ++ [Event.imagineCall .character c.prompt,
              Event.upscaleCall m]).foldl ledgerStep ⟨[], init, true⟩).cur = st.progress
          rw [List.foldl_append, hA]; rfl
        · show ((st.events ++ [Event.imagineCall .character c.prompt,
              Event.upscaleCall m]).foldl ledgerStep ⟨[], init, true⟩).ok = true
          rw [List.foldl_append, hA]; rfl
      · have hcp : An.charPhase w (c :: t) st
            = ({ st with events := st.events
                  ++ [Event.imagineCall .character c.prompt, Event.upscaleCall m,
                      Event.downloadFail u fp] },
               false) := by
          simp [An.charPhase, hm, h]
        rw [hcp]
        constructor
        · show ((st.events ++ [Event.imagineCall .character c.prompt, Event.upscaleCall m,
              Event.downloadFail u fp]).foldl ledgerStep ⟨[], init, true⟩).cur = st.progress
          rw [List.foldl_append, hA]; rfl
        · show ((st.events ++ [Event.imagineCall .character c.prompt, Event.upscaleCall m,
              Event.downloadFail u fp]).foldl ledgerStep ⟨[], init, true⟩).ok = true
          rw [List.foldl_append, hA]; rfl
      · have hcp : An.charPhase w (c :: t) st
            = An.charPhase w t
              { events := st.events
                  ++ [Event.imagineCall .character c.prompt, Event.upscaleCall m,
                      Event.download u (An.charImagePath c.name)]
                  ++ [Event.ledgerSave ⟨st.progress.completedCharacters ++ [c.name],
                        st.progress.completedScenes⟩]
                progress := ⟨st.progress.completedCharacters ++ [c.name],
                  st.progress.completedScenes⟩
                savedLedger := ⟨st.progress.completedCharacters ++ [c.name],
                  st.progress.completedScenes⟩
                refs := (c.name, u) :: st.refs
                files := (c.name, An.charImagePath c.name) :: st.files } := by
          simp [An.charPhase, hm, h]
        have hfold : ((st.events
              ++ [Event.imagineCall .character c.prompt, Event.upscaleCall m,
                  Event.download u (An.charImagePath c.name)]
              ++ [Event.ledgerSave ⟨st.progress.completedCharacters ++ [c.name],
                    st.progress.completedScenes⟩]).foldl ledgerStep ⟨[], init, true⟩)
            = ⟨An.charImagePath c.name :: dl,
               ⟨st.progress.completedCharacters ++ [c.name], st.progress.completedScenes⟩,
               true⟩ := by
          rw [List.foldl_append, List.foldl_append, hA]
          exact ledgerStep_saveChar _ _ _ (by simp)
        rw [hcp]
        refine ih _ ?_ ?_
        · show ((st.events
              ++ [Event.imagineCall .character c.prompt, Event.upscaleCall m,
                  Event.download u (An.charImagePath c.name)]
              ++ [Event.ledgerSave ⟨st.progress.completedCharacters ++ [c.name],
                    st.progress.completedScenes⟩]).foldl ledgerStep ⟨[], init, true⟩).cur
            = ⟨st.progress.completedCharacters ++ [c.name], st.progress.completedScenes⟩
          rw [hfold]
        · show ((st.events
              ++ [Event.imagineCall .character c.prompt, Event.upscaleCall m,
                  Event.download u (An.charImagePath c.name)]
              ++ [Event.ledgerSave ⟨st.progress.completedCharacters ++ [c.name],
                    st.progress.completedScenes⟩]).foldl ledgerStep ⟨[], init, true⟩).ok
            = true
          rw [hfold]

/-- Scene-loop invariant, mirror of `charPhase_audit`. -/
theorem scenePhase_audit (w : An.World) (init : ProgressState) :
    ∀ (ss : List An.StoryScene) (st : An.RunState),
      (st.events.foldl ledgerStep ⟨[], init, true⟩).cur = st.progress →
      (st.events.foldl ledgerStep ⟨[], init, true⟩).ok = true →
      ((An.scenePhase w ss st).1.events.foldl ledgerStep ⟨[], init, true⟩).cur
          = (An.scenePhase w ss st).1.progress
        ∧ ((An.scenePhase w ss st).1.events.foldl ledgerStep ⟨[], init, true⟩).ok
          = true := by
  intro ss
  induction ss with
  | nil => exact fun st h1 h2 => ⟨h1, h2⟩
  | cons s t ih =>
    intro st h1 h2
    by_cases hc : st.progress.completedScenes.contains s.title = true
    · have hm : s.title ∈ st.progress.completedScenes := List.mem_of_elem_eq_true hc
      have hcp : An.scenePhase w (s :: t) st = An.scenePhase w t st := by
        simp [An.scenePhase, hm]
      rw [hcp]; exact ih st h1 h2
    · have hm : s.title ∉ st.progress.completedScenes :=
        fun hmem => hc (List.elem_eq_true_of_mem hmem)
      rcases hA : st.events.foldl ledgerStep ⟨[], init, true⟩ with ⟨dl, cur, okb⟩
      rw [hA] at h1 h2
      dsimp at h1 h2
      subst h1; subst h2
      rcases genScene_shape w s st.refs with ⟨e, h⟩ | ⟨m, e, h⟩ | ⟨m, u, fp, e, h⟩ | ⟨m, u, h⟩
      · have hcp : An.scenePhase w (s :: t) st
            = ({ st with events := st.events
                  ++ [Event.imagineCall .scene (s.prompt st.refs)] }, false) := by
          simp [An.scenePhase, hm, h]
        rw [hcp]
        constructor
        · show ((st.events ++ [Event.imagineCall .scene (s.prompt st.refs)]).foldl
              ledgerStep ⟨[], init, true⟩).cur = st.progress
          rw [List.foldl_append, hA]; rfl
        · show ((st.events ++ [Event.imagineCall .scene (s.prompt st.refs)]).foldl
              ledgerStep ⟨[], init, true⟩).ok = true
          rw [List.foldl_append, hA]; rfl
      · have hcp : An.scenePhase w (s :: t) st
            = ({ st with events := st.events
                  ++ [Event.imagineCall .scene (s.prompt st.refs), Event.upscaleCall m] },
               false) := by
          simp [An.scenePhase, hm, h]
        rw [hcp]
        constructor
        · show ((st.events ++ [Event.imagineCall .scene (s.prompt st.refs),
              Event.upscaleCall m]).foldl ledgerStep ⟨[], init, true⟩).cur = st.progress
          rw [List.foldl_append, hA]; rfl
        · show ((st.events ++ [Event.imagineCall .scene (s.prompt st.refs),
              Event.upscaleCall m]).foldl ledgerStep ⟨[], init, true⟩).ok = true
          rw [List.foldl_append, hA]; rfl
      · have hcp : An.scenePhase w (s :: t) st
            = ({ st with events := st.events
                  ++ [Event.imagineCall .scene (s.prompt st.refs), Event.upscaleCall m,
                      Event.downloadFail u fp] },
               false) := by
          simp [An.scenePhase, hm, h]
        rw [hcp]
        constructor
        · show ((st.events ++ [Event.imagineCall .scene (s.prompt st.refs),
              Event.upscaleCall m, Event.downloadFail u fp]).foldl ledgerStep
              ⟨[], init, true⟩).cur = st.progress
          rw [List.foldl_append, hA]; rfl
        · show ((st.events ++ [Event.imagineCall .scene (s.prompt st.refs),
              Event.upscaleCall m, Event.downloadFail u fp]).foldl ledgerStep
              ⟨[], init, true⟩).ok = true
          rw [List.foldl_append, hA]; rfl
      · have hcp : An.scenePhase w (s :: t) st
            = An.scenePhase w t
              { st with
                events := st.events
                  ++ [Event.imagineCall .scene (s.prompt st.refs), Event.upscaleCall m,
                      Event.download u (An.sceneImagePath s.title)]
                  ++ [Event.ledgerSave ⟨st.progress.completedCharacters,
                        st.progress.completedScenes ++ [s.title]⟩]
                progress := ⟨st.progress.completedCharacters,
                  st.progress.completedScenes ++ [s.title]⟩
                savedLedger := ⟨st.progress.completedCharacters,
                  st.progress.completedScenes ++ [s.title]⟩ } := by
          simp [An.scenePhase, hm, h]
        have hfold : ((st.events
              ++ [Event.imagineCall .scene (s.prompt st.refs), Event.upscaleCall m,
                  Event.download u (An.sceneImagePath s.title)]
              ++ [Event.ledgerSave ⟨st.progress.completedCharacters,
                    st.progress.completedScenes ++ [s.title]⟩]).foldl ledgerStep
              ⟨[], init, true⟩)
            = ⟨An.sceneImagePath s.title :: dl,
               ⟨st.progress.completedCharacters, st.progress.completedScenes ++ [s.title]⟩,
               true⟩ := by
          rw [List.foldl_append, List.foldl_append, hA]
          exact ledgerStep_saveScene _ _ _ (by simp)
        rw [hcp]
        refine ih _ ?_ ?_
        · show ((st.events
              ++ [Event.imagineCall .scene (s.prompt st.refs), Event.upscaleCall m,
                  Event.download u (An.sceneImagePath s.title)]
              ++ [Event.ledgerSave ⟨st.progress.completedCharacters,
                    st.progress.completedScenes ++ [s.title]⟩]).foldl ledgerStep
              ⟨[], init, true⟩).cur
            = ⟨st.progress.completedCharacters, st.progress.completedScenes ++ [s.title]⟩
          rw [hfold]
        · show ((st.events
              ++ [Event.imagineCall .scene (s.prompt st.refs), Event.upscaleCall m,
                  Event.download u (An.sceneImagePath s.title)]
              ++ [Event.ledgerSave ⟨st.progress.completedCharacters,
                    st.progress.completedScenes ++ [s.title]⟩]).foldl ledgerStep
              ⟨[], init, true⟩).ok = true
          rw [hfold]

end MJ

namespace MJ

/-- Characters whose names the ledger already holds are all skipped, with
no state change. -/
theorem charPhase_skipAll (w : An.World) :
    ∀ (cs : List An.MainCharacter) (st : An.RunState),
      (∀ c ∈ cs, c.name ∈ st.progress.completedCharacters) →
      An.charPhase w cs st = (st, true) := by
  intro cs
  induction cs with
  | nil => intro st _; rfl
  | cons c t ih =>
    intro st h
    have hm := h c (List.mem_cons_self c t)
    have hcp : An.charPhase w (c :: t) st = An.charPhase w t st := by
      simp [An.charPhase, hm]
    rw [hcp]
    exact ih st (fun x hx => h x (List.mem_cons_of_mem c hx))

/-- Scenes whose titles the ledger already holds are all skipped, with no
state change. -/
theorem scenePhase_skipAll (w : An.World) :
    ∀ (ss : List An.StoryScene) (st : An.RunState),
      (∀ s ∈ ss, s.title ∈ st.progress.completedScenes) →
      An.scenePhase w ss st = (st, true) := by
  intro ss
  induction ss with
  | nil => intro st _; rfl
  | cons s t ih =>
    intro st h
    have hm := h s (List.mem_cons_self s t)
    have hcp : An.scenePhase w (s :: t) st = An.scenePhase w t st := by
      simp [An.scenePhase, hm]
    rw [hcp]
    exact ih st (fun x hx => h x (List.mem_cons_of_mem s hx))

/-- Claim C2: every item whose identifier the loaded ledger holds is
skipped without any backend call, so a run of the ledger pipeline over a
story whose characters and scenes are all already marked complete performs
zero backend submissions (no `Imagine`, no `Upscale`). -/
theorem c2_resume_idempotence (w : An.World) (story : An.Story) (ledger : ProgressState)
    (hc : ∀ c ∈ story.mainCharacters, c.name ∈ ledger.completedCharacters)
    (hs : ∀ s ∈ story.scenes, s.title ∈ ledger.completedScenes) :
    submissionCount (An.runMain w story ledger).events = 0 := by
  have h1 : An.charPhase w story.mainCharacters (An.initState w ledger)
      = (An.initState w ledger, true) := charPhase_skipAll w _ _ hc
  have h2 : An.scenePhase w story.scenes (An.initState w ledger)
      = (An.initState w ledger, true) := scenePhase_skipAll w _ _ hs
  simp only [An.runMain, h1, h2]
  rfl

/-- Witness for C2: running the embedded pipeline on the hardcoded story
with a ledger marking all five characters and all seven scenes complete
performs zero backend submissions. -/
theorem c2_witness : submissionCount (An.runMain okWorld An.story c2Ledger).events = 0 :=
  c2_resume_idempotence okWorld An.story c2Ledger (by decide) (by decide)

/-- Claim C1 (counterexample): in the ledger pipeline a single null
backend result does NOT leave the remaining items attempted: with a
backend whose `Imagine` always returns null and an empty ledger, the run
over the five-character story performs exactly one `Imagine` call — the
thrown error propagates to the catch outside the loops, so characters
2..5 (and all scenes) are never attempted.  (The failed item is indeed
not marked complete: the saved ledger stays empty.) -/
theorem c1_counterexample :
    imagineCount (An.runMain c1World An.story ⟨[], []⟩).events = 1
    ∧ An.story.mainCharacters.length = 5
    ∧ (An.runMain c1World An.story ⟨[], []⟩).savedLedger = ⟨[], []⟩ :=
  ⟨rfl, rfl, rfl⟩

end MJ

namespace MJ

/-- `imagineCount` distributes over append. -/
theorem imagineCount_append (a b : List Event) :
    imagineCount (a ++ b) = imagineCount a + imagineCount b := by
  simp [imagineCount, List.filter_append]

/-- A download attempt emits no `Imagine` call. -/
theorem imagineCount_downloadImage (w : Ex.World) (u p : String) :
    imagineCount (Ex.downloadImage w u p) = 0 := by
  unfold Ex.downloadImage
  split <;> rfl

/-- The variation-download loop emits no `Imagine` call. -/
theorem imagineCount_flatten_downloads (w : Ex.World) (l : List (Nat × Variation))
    (f : Nat × Variation → String) :
    imagineCount ((l.map fun p => Ex.downloadImage w p.2.uri (f p)).flatten) = 0 := by
  induction l with
  | nil => rfl
  | cons a t ih =>
    simp only [List.map_cons, List.flatten_cons]
    rw [imagineCount_append, imagineCount_downloadImage, ih]

/-- `imagineCount` of the empty trace. -/
theorem imagineCount_nil : imagineCount [] = 0 := rfl

/-- `imagineCount` over a cons. -/
theorem imagineCount_cons (e : Event) (l : List Event) :
    imagineCount (e :: l) = (if isImagine e = true then 1 else 0) + imagineCount l := by
  unfold imagineCount
  rw [List.filter_cons]
  split
  · simp [Nat.add_comm]
  · simp

/-- Each call of `generateAndSelectVariation` submits exactly one
`Imagine`, on every control path (null result, empty options, failed
writes, success). -/
theorem genSel_imagineCount (w : Ex.World) (prompt outputName : String) (ty : ItemKind) :
    imagineCount (Ex.generateAndSelectVariation w prompt outputName ty).1 = 1 := by
  unfold Ex.generateAndSelectVariation
  rcases h1 : w.imagine prompt with _ | im
  · simp only [h1]; rfl
  · simp only [h1]
    rcases h2 : im.options with _ | ⟨_ | ⟨v0, vs⟩⟩
    · simp only [h2]; rfl
    · simp only [h2]; rfl
    · simp only [h2]
      by_cases hw : w.writeOk (Ex.metadataPath ty outputName) = true
      · rw [if_pos hw]
        simp [imagineCount_append, imagineCount_cons, imagineCount_nil,
          imagineCount_flatten_downloads, imagineCount_downloadImage, isImagine]
      · rw [if_neg hw]
        simp [imagineCount_append, imagineCount_cons, imagineCount_nil,
          imagineCount_flatten_downloads, imagineCount_downloadImage, isImagine]

/-- The character loop of `generateCharacterReferences` submits exactly
one `Imagine` per character of the script, whatever the backend and
filesystem do. -/
theorem charLoop_attempts_all (w : Ex.World) :
    ∀ (cs : List Character) (refs : List (String × String)),
      imagineCount (Ex.charLoop w cs refs).1 = cs.length := by
  intro cs
  induction cs with
  | nil => intro refs; rfl
  | cons c t ih =>
    intro refs
    unfold Ex.charLoop
    rw [imagineCount_append, genSel_imagineCount]
    simp [ih, Nat.add_comm]

end MJ

namespace MJ

/-- Claim C1 (amended): partial-failure containment holds only in the
`exampleScript.ts` pipeline, which has no ledger: there, every character is
attempted (exactly one `Imagine` per script character) regardless of
null/empty backend results or write failures.  In the ledger pipeline a
null backend result for the first pending character throws past the loops:
the run records exactly that one `Imagine`, the remaining items are not
attempted, the failed item is not marked complete and the saved ledger
still reflects exactly the previously successful items. -/
theorem c1_partial_failure_amended :
    (∀ (w : Ex.World) (script : AnimeScript),
      imagineCount (Ex.generateCharacterReferences w script).1 = script.characters.length)
    ∧ (∀ (w : An.World) (story : An.Story) (c : An.MainCharacter)
        (rest : List An.MainCharacter),
        story.mainCharacters = c :: rest → w.imagine c.prompt = none →
        (An.runMain w story ⟨[], []⟩).events
            = (An.initState w ⟨[], []⟩).events ++ [Event.imagineCall .character c.prompt]
          ∧ (An.runMain w story ⟨[], []⟩).savedLedger = ⟨[], []⟩) := by
  constructor
  · intro w script
    exact charLoop_attempts_all w script.characters []
  · intro w story c rest hstory him
    have hgen : An.generateCharacter w c
        = ([Event.imagineCall .character c.prompt],
           Except.error ("Failed to generate character " ++ c.name)) := by
      unfold An.generateCharacter
      simp only [him]
    have hcp : An.charPhase w (c :: rest) (An.initState w ⟨[], []⟩)
        = ({ An.initState w ⟨[], []⟩ with
              events := (An.initState w ⟨[], []⟩).events
                ++ [Event.imagineCall .character c.prompt] }, false) := by
      have hm : c.name ∉ (An.initState w ⟨[], []⟩).progress.completedCharacters := by
        simp [An.initState]
      simp [An.charPhase, hm, hgen]
    constructor
    · simp [An.runMain, hstory, hcp]
    · simp [An.runMain, hstory, hcp]
      rfl

/-- Witness for the amended C1: with an always-failing backend, the
two-character example script still attempts both characters, while the
ledger pipeline on the hardcoded story stops with an empty saved ledger. -/
theorem c1_amended_witness :
    imagineCount (Ex.generateCharacterReferences c1ExWorld c1Script).1 = 2
    ∧ (An.runMain c1World An.story ⟨[], []⟩).savedLedger = ⟨[], []⟩ := by
  constructor
  · rw [c1_partial_failure_amended.1 c1ExWorld c1Script]; rfl
  · exact (c1_partial_failure_amended.2 c1World An.story An.chZoey
      [An.chBlaine, An.chMax, An.chSophia, An.chMother] rfl rfl).2

/-- Claim C3 (counterexample): the ledger pipeline writes NO per-item
metadata record at all: a successful run completing the one pending
character contains a ledger write but not a single metadata-record write,
so "the metadata write happens strictly before the ledger entry" has no
instance — the run's only per-item persistence is the artifact download. -/
theorem c3_counterexample :
    ((An.runMain okWorld An.story c3Ledger).events.filter isWriteMeta) = []
    ∧ ((An.runMain okWorld An.story c3Ledger).events.filter isLedgerSave).length = 1
    ∧ (An.runMain okWorld An.story c3Ledger).savedLedger
        = ⟨["Blaine", "Max", "Sophia", "Mother", "Zoey"], c3Ledger.completedScenes⟩ :=
  ⟨rfl, rfl, rfl⟩

/-- Claim C3 (amended): for every item that becomes marked complete in the
ledger, the artifact download happens strictly before the ledger write,
and the ledger is saved once per completed item — every `ledgerSave` of
any run's trace appends exactly one item (character name or scene title)
to the previously saved contents and is preceded in the trace by the
download of that item's artifact.  (The ledgered pipeline writes no
per-item metadata record, so the artifact write is the only persistence
that precedes the ledger entry.) -/
theorem c3_ledger_after_artifact (w : An.World) (story : An.Story)
    (ledger : ProgressState) :
    ledgerAudit (An.runMain w story ledger).events ledger = true := by
  have h0 : ((An.initState w ledger).events.foldl ledgerStep ⟨[], ledger, true⟩).cur
      = (An.initState w ledger).progress := rfl
  have h0b : ((An.initState w ledger).events.foldl ledgerStep ⟨[], ledger, true⟩).ok
      = true := rfl
  have hc := charPhase_audit w ledger story.mainCharacters (An.initState w ledger) h0 h0b
  rcases hr1 : An.charPhase w story.mainCharacters (An.initState w ledger) with ⟨st1, ok1⟩
  rw [hr1] at hc
  dsimp at hc
  cases ok1 with
  | false =>
    have : An.runMain w story ledger = st1 := by simp [An.runMain, hr1]
    rw [this]
    exact hc.2
  | true =>
    have hs := scenePhase_audit w ledger story.scenes st1 hc.1 hc.2
    rcases hr2 : An.scenePhase w story.scenes st1 with ⟨st2, ok2⟩
    rw [hr2] at hs
    dsimp at hs
    cases ok2 with
    | false =>
      have : An.runMain w story ledger = st2 := by simp [An.runMain, hr1, hr2]
      rw [this]
      exact hs.2
    | true =>
      have : An.runMain w story ledger
          = { st2 with events := st2.events ++ [Event.refsWrite st2.refs st2.files] } := by
        simp [An.runMain, hr1, hr2]
      rw [this]
      show ((st2.events ++ [Event.refsWrite st2.refs st2.files]).foldl ledgerStep
        ⟨[], ledger, true⟩).ok = true
      rw [List.foldl_append]
      exact hs.2

set_option maxRecDepth 4000 in
/-- Claim C10: resuming from a ledger that marks all five characters
complete while the `character_references.json` summary is absent leaves
the in-memory reference record empty (the skipped characters never
repopulate it), and then every one of the seven scene prompts submitted to
the backend contains the literal substring "undefined" where the handles
were interpolated. -/
theorem c10_resume_bakes_undefined :
    An.charPhaseRefs okWorld An.story c10Ledger = []
    ∧ submissionCount (An.charPhase okWorld An.story.mainCharacters
        (An.initState okWorld c10Ledger)).1.events = 0
    ∧ (sceneImaginePrompts (An.runMain okWorld An.story c10Ledger).events).length = 7
    ∧ (sceneImaginePrompts (An.runMain okWorld An.story c10Ledger).events).all
        (fun p => containsStr "undefined" p) = true := by
  refine ⟨rfl, rfl, rfl, by decide⟩

end MJ

namespace MJ

/-- `generateCharacter` never emits a scene-phase `Imagine`. -/
theorem genChar_noScene (w : An.World) (c : An.MainCharacter) :
    ∀ e ∈ (An.generateCharacter w c).1, isSceneImagine e = false := by
  rcases genChar_shape w c with ⟨e, h⟩ | ⟨m, e, h⟩ | ⟨m, u, fp, e, h⟩ | ⟨m, u, h⟩ <;>
    simp [h, isSceneImagine]

/-- `generateScene` never emits a character-phase `Imagine`. -/
theorem genScene_noChar (w : An.World) (s : An.StoryScene) (refs : List (String × String)) :
    ∀ e ∈ (An.generateScene w s refs).1, isCharImagine e = false := by
  rcases genScene_shape w s refs with ⟨e, h⟩ | ⟨m, e, h⟩ | ⟨m, u, fp, e, h⟩ | ⟨m, u, h⟩ <;>
    simp [h, isCharImagine]

/-- Every scene-phase `Imagine` of `generateScene` carries exactly the
scene's template applied to the reference record it was given. -/
theorem genScene_prompts (w : An.World) (s : An.StoryScene) (refs : List (String × String)) :
    ∀ p, Event.imagineCall .scene p ∈ (An.generateScene w s refs).1 →
      p = s.prompt refs := by
  rcases genScene_shape w s refs with ⟨e, h⟩ | ⟨m, e, h⟩ | ⟨m, u, fp, e, h⟩ | ⟨m, u, h⟩ <;>
    intro p hp <;> simp [h] at hp <;> simp [hp]

/-- The character loop only appends events, and none of them is a
scene-phase `Imagine`. -/
theorem charPhase_extra (w : An.World) :
    ∀ (cs : List An.MainCharacter) (st : An.RunState),
      ∃ extra, (An.charPhase w cs st).1.events = st.events ++ extra
        ∧ ∀ e ∈ extra, isSceneImagine e = false := by
  intro cs
  induction cs with
  | nil => intro st; exact ⟨[], by simp [An.charPhase], by simp⟩
  | cons c t ih =>
    intro st
    by_cases hm : c.name ∈ st.progress.completedCharacters
    · have hcp : An.charPhase w (c :: t) st = An.charPhase w t st := by
        simp [An.charPhase, hm]
      rw [hcp]; exact ih st
    · rcases hg : (An.generateCharacter w c).2 with e | ⟨uri, fp⟩
      · have hcp : An.charPhase w (c :: t) st
            = ({ st with events := st.events ++ (An.generateCharacter w c).1 }, false) := by
          simp [An.charPhase, hm, hg]
        rw [hcp]
        exact ⟨(An.generateCharacter w c).1, rfl, genChar_noScene w c⟩
      · have hcp : An.charPhase w (c :: t) st
            = An.charPhase w t
              { events := st.events ++ (An.generateCharacter w c).1
                  ++ [Event.ledgerSave ⟨st.progress.completedCharacters ++ [c.name],
                        st.progress.completedScenes⟩]
                progress := ⟨st.progress.completedCharacters ++ [c.name],
                  st.progress.completedScenes⟩
                savedLedger := ⟨st.progress.completedCharacters ++ [c.name],
                  st.progress.completedScenes⟩
                refs := (c.name, uri) :: st.refs
                files := (c.name, fp) :: st.files } := by
          simp [An.charPhase, hm, hg]
        rw [hcp]
        obtain ⟨extra2, he, hs⟩ := ih
          { events := st.events ++ (An.generateCharacter w c).1
              ++ [Event.ledgerSave ⟨st.progress.completedCharacters ++ [c.name],
                    st.progress.completedScenes⟩]
            progress := ⟨st.progress.completedCharacters ++ [c.name],
              st.progress.completedScenes⟩
            savedLedger := ⟨st.progress.completedCharacters ++ [c.name],
              st.progress.completedScenes⟩
            refs := (c.name, uri) :: st.refs
            files := (c.name, fp) :: st.files }
        refine ⟨(An.generateCharacter w c).1
            ++ [Event.ledgerSave ⟨st.progress.completedCharacters ++ [c.name],
                  st.progress.completedScenes⟩] ++ extra2, ?_, ?_⟩
        · rw [he]
          simp [List.append_assoc]
        · intro e hex
          rcases List.mem_append.mp hex with hex | hex
          · rcases List.mem_append.mp hex with hex | hex
            · exact genChar_noScene w c e hex
            · simp at hex; subst hex; rfl
          · exact hs e hex

/-- The scene loop never writes the reference record, only appends events,
none of them a character-phase `Imagine`, and every scene-phase `Imagine`
it emits is some pending scene's template applied to the record as it
stood when the loop began. -/
theorem scenePhase_extra (w : An.World) :
    ∀ (ss : List An.StoryScene) (st : An.RunState),
      (An.scenePhase w ss st).1.refs = st.refs
      ∧ ∃ extra, (An.scenePhase w ss st).1.events = st.events ++ extra
        ∧ (∀ e ∈ extra, isCharImagine e = false)
        ∧ (∀ p, Event.imagineCall .scene p ∈ extra → ∃ s ∈ ss, p = s.prompt st.refs) := by
  intro ss
  induction ss with
  | nil => intro st; exact ⟨rfl, [], by simp [An.scenePhase], by simp, by simp⟩
  | cons s t ih =>
    intro st
    by_cases hm : s.title ∈ st.progress.completedScenes
    · have hcp : An.scenePhase w (s :: t) st = An.scenePhase w t st := by
        simp [An.scenePhase, hm]
      rw [hcp]
      obtain ⟨hr, extra, he, hnc, hp⟩ := ih st
      exact ⟨hr, extra, he, hnc,
        fun p hpe => (hp p hpe).elim fun s2 hs2 =>
          ⟨s2, List.mem_cons_of_mem s hs2.1, hs2.2⟩⟩
    · rcases hg : (An.generateScene w s st.refs).2 with e | fp
      · have hcp : An.scenePhase w (s :: t) st
            = ({ st with events := st.events ++ (An.generateScene w s st.refs).1 },
               false) := by
          simp [An.scenePhase, hm, hg]
        rw [hcp]
        refine ⟨rfl, (An.generateScene w s st.refs).1, rfl,
          genScene_noChar w s st.refs, ?_⟩
        intro p hpe
        exact ⟨s, List.mem_cons_self s t, genScene_prompts w s st.refs p hpe⟩
      · have hcp : An.scenePhase w (s :: t) st
            = An.scenePhase w t
              { st with
                events := st.events ++ (An.generateScene w s st.refs).1
                  ++ [Event.ledgerSave ⟨st.progress.completedCharacters,
                        st.progress.completedScenes ++ [s.title]⟩]
                progress := ⟨st.progress.completedCharacters,
                  st.progress.completedScenes ++ [s.title]⟩
                savedLedger := ⟨st.progress.completedCharacters,
                  st.progress.completedScenes ++ [s.title]⟩ } := by
          simp [An.scenePhase, hm, hg]
        rw [hcp]
        obtain ⟨hr, extra2, he, hnc, hp⟩ := ih
          { st with
            events := st.events ++ (An.generateScene w s st.refs).1
              ++ [Event.ledgerSave ⟨st.progress.completedCharacters,
                    st.progress.completedScenes ++ [s.title]⟩]
            progress := ⟨st.progress.completedCharacters,
              st.progress.completedScenes ++ [s.title]⟩
            savedLedger := ⟨st.progress.completedCharacters,
              st.progress.completedScenes ++ [s.title]⟩ }
        refine ⟨hr, (An.generateScene w s st.refs).1
            ++ [Event.ledgerSave ⟨st.progress.completedCharacters,
                  st.progress.completedScenes ++ [s.title]⟩] ++ extra2, ?_, ?_, ?_⟩
        · rw [he]
          simp [List.append_assoc]
        · intro e hex
          rcases List.mem_append.mp hex with hex | hex
          · rcases List.mem_append.mp hex with hex | hex
            · exact genScene_noChar w s st.refs e hex
            · simp at hex; subst hex; rfl
          · exact hnc e hex
        · intro p hpe
          rcases List.mem_append.mp hpe with hpe | hpe
          · rcases List.mem_append.mp hpe with hpe | hpe
            · exact ⟨s, List.mem_cons_self s t,
                genScene_prompts w s st.refs p hpe⟩
            · simp at hpe
          · obtain ⟨s2, hs2, hps⟩ := hp p hpe
            exact ⟨s2, List.mem_cons_of_mem s hs2, hps⟩

end MJ

namespace MJ

/-- Once a trace free of scene-phase `Imagine` calls has been consumed, the
ordering scan continues unchanged. -/
theorem phaseAux_noScene (l : List Event) (h : ∀ e ∈ l, isSceneImagine e = false) :
    ∀ rest, phaseAux false (l ++ rest) = phaseAux false rest := by
  induction l with
  | nil => intro rest; rfl
  | cons e t ih =>
    intro rest
    have he := h e (List.mem_cons_self e t)
    have ht : ∀ x ∈ t, isSceneImagine x = false :=
      fun x hx => h x (List.mem_cons_of_mem e hx)
    cases e with
    | imagineCall k p =>
      cases k with
      | character => exact ih ht rest
      | scene => simp [isSceneImagine] at he
    | upscaleCall m => exact ih ht rest
    | mkdirCall d => exact ih ht rest
    | download u p => exact ih ht rest
    | downloadFail u p => exact ih ht rest
    | writeMeta a b c d e f g => exact ih ht rest
    | ledgerSave s => exact ih ht rest
    | refsWrite a b => exact ih ht rest

/-- A trace free of character-phase `Imagine` calls passes the ordering
scan from any state. -/
theorem phaseAux_noChar (l : List Event) (h : ∀ e ∈ l, isCharImagine e = false) :
    ∀ b, phaseAux b l = true := by
  induction l with
  | nil => intro b; rfl
  | cons e t ih =>
    intro b
    have he := h e (List.mem_cons_self e t)
    have ht : ∀ x ∈ t, isCharImagine x = false :=
      fun x hx => h x (List.mem_cons_of_mem e hx)
    cases e with
    | imagineCall k p =>
      cases k with
      | character => simp [isCharImagine] at he
      | scene => exact ih ht true
    | upscaleCall m => exact ih ht b
    | mkdirCall d => exact ih ht b
    | download u p => exact ih ht b
    | downloadFail u p => exact ih ht b
    | writeMeta a b2 c d e f g => exact ih ht b
    | ledgerSave s => exact ih ht b
    | refsWrite a b2 => exact ih ht b

/-- The initial trace holds only the two directory creations. -/
theorem initState_noScene (w : An.World) (ledger : ProgressState) :
    ∀ e ∈ (An.initState w ledger).events, isSceneImagine e = false := by
  simp [An.initState, isSceneImagine]

/-- The character loop only prepends entries for characters of its list to
the reference record. -/
theorem charPhase_refs (w : An.World) :
    ∀ (cs : List An.MainCharacter) (st : An.RunState),
      ∃ nr, (An.charPhase w cs st).1.refs = nr ++ st.refs
        ∧ ∀ pr ∈ nr, pr.1 ∈ cs.map An.MainCharacter.name := by
  intro cs
  induction cs with
  | nil => intro st; exact ⟨[], by simp [An.charPhase], by simp⟩
  | cons c t ih =>
    intro st
    by_cases hm : c.name ∈ st.progress.completedCharacters
    · have hcp : An.charPhase w (c :: t) st = An.charPhase w t st := by
        simp [An.charPhase, hm]
      rw [hcp]
      obtain ⟨nr, hnr, hmem⟩ := ih st
      exact ⟨nr, hnr, fun pr hpr => List.mem_cons_of_mem _ (hmem pr hpr)⟩
    · rcases hg : (An.generateCharacter w c).2 with e | ⟨uri, fp⟩
      · have hcp : An.charPhase w (c :: t) st
            = ({ st with events := st.events ++ (An.generateCharacter w c).1 }, false) := by
          simp [An.charPhase, hm, hg]
        rw [hcp]
        exact ⟨[], by simp, by simp⟩
      · have hcp : An.charPhase w (c :: t) st
            = An.charPhase w t
              { events := st.events ++ (An.generateCharacter w c).1
                  ++ [Event.ledgerSave ⟨st.progress.completedCharacters ++ [c.name],
                        st.progress.completedScenes⟩]
                progress := ⟨st.progress.completedCharacters ++ [c.name],
                  st.progress.completedScenes⟩
                savedLedger := ⟨st.progress.completedCharacters ++ [c.name],
                  st.progress.completedScenes⟩
                refs := (c.name, uri) :: st.refs
                files := (c.name, fp) :: st.files } := by
          simp [An.charPhase, hm, hg]
        rw [hcp]
        obtain ⟨nr, hnr, hmem⟩ := ih
          { events := st.events ++ (An.generateCharacter w c).1
              ++ [Event.ledgerSave ⟨st.progress.completedCharacters ++ [c.name],
                    st.progress.completedScenes⟩]
            progress := ⟨st.progress.completedCharacters ++ [c.name],
              st.progress.completedScenes⟩
            savedLedger := ⟨st.progress.completedCharacters ++ [c.name],
              st.progress.completedScenes⟩
            refs := (c.name, uri) :: st.refs
            files := (c.name, fp) :: st.files }
        refine ⟨nr ++ [(c.name, uri)], ?_, ?_⟩
        · rw [hnr]
          simp
        · intro pr hpr
          rcases List.mem_append.mp hpr with hpr | hpr
          · exact List.mem_cons_of_mem _ (hmem pr hpr)
          · simp at hpr
            subst hpr
            simp

end MJ

namespace MJ

set_option maxRecDepth 4000 in
/-- Claim C4 (counterexample): the handles available to scene prompts are
NOT exactly those resolved during the character phase of the run: with a
pre-existing `character_references.json` carrying ("Zoey", "http://old")
and a ledger marking all characters complete, the character phase submits
nothing and resolves nothing — yet the reference record at scene time is
[("Zoey", "http://old")] and the one generated scene's submitted prompt
embeds the handle "http://old" loaded from the summary file, not resolved
this run. -/
theorem c4_counterexample :
    An.charPhaseRefs c4World An.story c4Ledger = [("Zoey", "http://old")]
    ∧ imagineCount (An.charPhase c4World An.story.mainCharacters
        (An.initState c4World c4Ledger)).1.events = 0
    ∧ sceneImaginePrompts (An.runMain c4World An.story c4Ledger).events
        = [An.scene1.prompt [("Zoey", "http://old")]]
    ∧ containsStr "http://old" (An.scene1.prompt [("Zoey", "http://old")]) = true := by
  refine ⟨rfl, rfl, rfl, by decide⟩

/-- Claim C4 (amended): in every run of the ledger pipeline all character
generations precede all scene generations (the trace passes the
phase-ordering scan), every scene prompt submitted is some scene's
template applied to the reference record as it stands at the end of the
character phase (the record does not change during the scene phase), and
that record is the loaded `character_references.json` summary extended by
entries for characters of this story resolved during the character phase
of this run. -/
theorem c4_phase_ordering (w : An.World) (story : An.Story) (ledger : ProgressState) :
    phaseOrdered (An.runMain w story ledger).events = true
    ∧ (∀ p, Event.imagineCall .scene p ∈ (An.runMain w story ledger).events →
        ∃ s ∈ story.scenes, p = s.prompt (An.charPhaseRefs w story ledger))
    ∧ ∃ newRefs, An.charPhaseRefs w story ledger
          = newRefs ++ (w.refsFile.map Prod.fst).getD []
        ∧ ∀ pr ∈ newRefs, pr.1 ∈ story.mainCharacters.map An.MainCharacter.name := by
  obtain ⟨extraC, heC, hnsC⟩ := charPhase_extra w story.mainCharacters (An.initState w ledger)
  obtain ⟨nrC, hnrC, hmemC⟩ := charPhase_refs w story.mainCharacters (An.initState w ledger)
  rcases hr1 : An.charPhase w story.mainCharacters (An.initState w ledger) with ⟨st1, ok1⟩
  rw [hr1] at heC hnrC
  dsimp at heC hnrC
  have hcr : An.charPhaseRefs w story ledger = st1.refs := by
    unfold An.charPhaseRefs
    rw [hr1]
  have hl1 : ∀ e ∈ (An.initState w ledger).events ++ extraC, isSceneImagine e = false := by
    intro e he
    rcases List.mem_append.mp he with he | he
    · exact initState_noScene w ledger e he
    · exact hnsC e he
  have hconj3 : ∃ newRefs, An.charPhaseRefs w story ledger
      = newRefs ++ (w.refsFile.map Prod.fst).getD []
      ∧ ∀ pr ∈ newRefs, pr.1 ∈ story.mainCharacters.map An.MainCharacter.name := by
    refine ⟨nrC, ?_, hmemC⟩
    rw [hcr, hnrC]
    rfl
  cases ok1 with
  | false =>
    have hrm : An.runMain w story ledger = st1 := by simp [An.runMain, hr1]
    rw [hrm]
    refine ⟨?_, ?_, hconj3⟩
    · rw [heC]
      unfold phaseOrdered
      have h := phaseAux_noScene _ hl1 []
      rw [List.append_nil] at h
      rw [h]
      rfl
    · intro p hp
      rw [heC] at hp
      have := hl1 _ hp
      simp [isSceneImagine] at this
  | true =>
    obtain ⟨hrefs, extraS, heS, hncS, hpS⟩ := scenePhase_extra w story.scenes st1
    rcases hr2 : An.scenePhase w story.scenes st1 with ⟨st2, ok2⟩
    rw [hr2] at hrefs heS
    dsimp at hrefs heS
    have hprompt : ∀ p, Event.imagineCall .scene p ∈ extraS →
        ∃ s ∈ story.scenes, p = s.prompt (An.charPhaseRefs w story ledger) := by
      intro p hp
      obtain ⟨s, hsmem, hps⟩ := hpS p hp
      exact ⟨s, hsmem, by rw [hcr]; exact hps⟩
    cases ok2 with
    | false =>
      have hrm : An.runMain w story ledger = st2 := by simp [An.runMain, hr1, hr2]
      have hev : (An.runMain w story ledger).events
          = (An.initState w ledger).events ++ extraC ++ extraS := by
        rw [hrm, heS, heC]
      refine ⟨?_, ?_, hconj3⟩
      · unfold phaseOrdered
        rw [hev, phaseAux_noScene _ hl1]
        exact phaseAux_noChar extraS hncS false
      · intro p hp
        rw [hev] at hp
        rcases List.mem_append.mp hp with hp | hp
        · have := hl1 _ hp
          simp [isSceneImagine] at this
        · exact hprompt p hp
    | true =>
      have hrm : An.runMain w story ledger
          = { st2 with events := st2.events ++ [Event.refsWrite st2.refs st2.files] } := by
        simp [An.runMain, hr1, hr2]
      have hev : (An.runMain w story ledger).events
          = (An.initState w ledger).events ++ extraC
            ++ (extraS ++ [Event.refsWrite st2.refs st2.files]) := by
        rw [hrm]
        dsimp
        rw [heS, heC, List.append_assoc]
      have hncS2 : ∀ e ∈ extraS ++ [Event.refsWrite st2.refs st2.files],
          isCharImagine e = false := by
        intro e he
        rcases List.mem_append.mp he with he | he
        · exact hncS e he
        · simp at he; subst he; rfl
      refine ⟨?_, ?_, hconj3⟩
      · unfold phaseOrdered
        rw [hev, phaseAux_noScene _ hl1]
        exact phaseAux_noChar _ hncS2 false
      · intro p hp
        rw [hev] at hp
        rcases List.mem_append.mp hp with hp | hp
        · have := hl1 _ hp
          simp [isSceneImagine] at this
        · rcases List.mem_append.mp hp with hp | hp
          · exact hprompt p hp
          · simp at hp

set_option maxRecDepth 8000 in
/-- Witness for the amended C4 at the concrete run of `c4_counterexample`:
the trace is phase ordered, the one submitted scene prompt is scene 1's
template applied to the end-of-character-phase record, and that record is
an extension of the loaded summary. -/
theorem c4_amended_witness :
    phaseOrdered (An.runMain c4World An.story c4Ledger).events = true
    ∧ (∃ s ∈ An.story.scenes,
        An.scene1.prompt [("Zoey", "http://old")]
          = s.prompt (An.charPhaseRefs c4World An.story c4Ledger))
    ∧ ∃ newRefs, An.charPhaseRefs c4World An.story c4Ledger
          = newRefs ++ (c4World.refsFile.map Prod.fst).getD []
        ∧ ∀ pr ∈ newRefs, pr.1 ∈ An.story.mainCharacters.map An.MainCharacter.name := by
  refine ⟨(c4_phase_ordering c4World An.story c4Ledger).1,
    (c4_phase_ordering c4World An.story c4Ledger).2.1 _ ?_,
    (c4_phase_ordering c4World An.story c4Ledger).2.2⟩
  decide

end MJ
